import Mathlib

/-!
Shallow embedding of the gorts-demo bookshelf service (Go) in Lean 4.

Conventions of the embedding:
* Go `time.Time` values are modelled as `Nat` (an abstract instant; the zero
  value of `time.Time` corresponds to `0`).  Every repository operation that
  calls `time.Now()` takes the current instant as an explicit `now` argument.
* Go `len(s)` on a string is the byte length, so it is modelled by
  `String.utf8ByteSize`.
* A Go `map[string]*T` guarded by a lock is modelled as an association list
  `List (String × T)`; lookup returns the first matching key, insertion
  appends, update rewrites the entry in place and delete filters it out.
  Map iteration order is unspecified in Go, so no theorem below depends on
  the order of this list.
* Go methods that mutate a struct through a pointer are modelled as functions
  returning the new value; methods that return an `error` return it as an
  explicit `Option`/`Except` value.  Defensive struct copies in the Go code
  (`stored := *book`) are identities under Lean's value semantics.
-/

/-- Model of `model.Book` (fields of the Go struct, timestamps as `Nat`). -/
structure Book where
  id : String
  title : String
  isbn : String
  authorID : String
  publishedAt : Nat
  pages : Int
  genre : String
  createdAt : Nat
  updatedAt : Nat
  deriving Repr, DecidableEq

/-- Model of `(b *Book) Validate`: first violated rule wins, `none` means valid. -/
def Book.validate (b : Book) : Option String :=
  if b.title = "" then some "title is required"
  else if b.title.utf8ByteSize > 200 then some "title must be 200 characters or less"
  else if b.isbn = "" then some "isbn is required"
  else if b.authorID = "" then some "author_id is required"
  else if b.pages < 0 then some "pages cannot be negative"
  else none

/-- Model of `model.Author`. -/
structure Author where
  id : String
  name : String
  bio : String
  birthDate : Nat
  country : String
  createdAt : Nat
  updatedAt : Nat
  deriving Repr, DecidableEq

/-- Model of `(a *Author) Validate`. -/
def Author.validate (a : Author) : Option String :=
  if a.name = "" then some "name is required"
  else if a.name.utf8ByteSize > 100 then some "name must be 100 characters or less"
  else if a.bio.utf8ByteSize > 2000 then some "bio must be 2000 characters or less"
  else none

/-- Model of `model.ReadingList`. -/
structure ReadingList where
  id : String
  name : String
  description : String
  bookIDs : List String
  createdAt : Nat
  updatedAt : Nat
  deriving Repr, DecidableEq

/-- Model of `(r *ReadingList) Validate`. -/
def ReadingList.validate (r : ReadingList) : Option String :=
  if r.name = "" then some "name is required"
  else if r.name.utf8ByteSize > 100 then some "name must be 100 characters or less"
  else if r.description.utf8ByteSize > 500 then some "description must be 500 characters or less"
  else none

/-- Model of `(r *ReadingList) AddBook`: the Go method scans `BookIDs` for the
id and returns `false` if found, otherwise appends it and returns `true`.
The mutated receiver is returned alongside the Go return value. -/
def ReadingList.addBook (r : ReadingList) (bookID : String) : Bool × ReadingList :=
  if r.bookIDs.contains bookID then
    (false, r)
  else
    (true, { r with bookIDs := r.bookIDs ++ [bookID] })

/-- Removal of the first occurrence of `b`, mirroring the Go slice surgery
`append(ids[:i], ids[i+1:]...)` at the first index `i` with `ids[i] == b`;
`none` when `b` does not occur. -/
def removeFirst : List String → String → Option (List String)
  | [], _ => none
  | x :: xs, b => if x = b then some xs else (removeFirst xs b).map (fun ys => x :: ys)

/-- Model of `(r *ReadingList) RemoveBook`. -/
def ReadingList.removeBook (r : ReadingList) (bookID : String) : Bool × ReadingList :=
  match removeFirst r.bookIDs bookID with
  | none => (false, r)
  | some ids => (true, { r with bookIDs := ids })

/-- Model of `(r *ReadingList) ContainsBook`. -/
def ReadingList.containsBook (r : ReadingList) (bookID : String) : Bool :=
  r.bookIDs.contains bookID

/-! ### Association-list model of the locked Go maps -/

/-- Lookup of the value stored under key `k` (Go `m[k]` on a string-keyed map). -/
def lookupKey (k : String) : List (String × α) → Option α
  | [] => none
  | p :: ps => if p.1 = k then some p.2 else lookupKey k ps

/-- Overwrite of the value stored under key `k` (Go `m[k] = v` when `k` is present). -/
def replaceKey (k : String) (v : α) (l : List (String × α)) : List (String × α) :=
  l.map (fun p => if p.1 = k then (k, v) else p)

/-- Deletion of key `k` (Go `delete(m, k)`). -/
def removeKey (k : String) (l : List (String × α)) : List (String × α) :=
  l.filter (fun p => p.1 != k)

/-- Errors declared in the `repository` package (`ErrBookNotFound`, ...). -/
inductive RepoError where
  | bookNotFound
  | bookExists
  | authorNotFound
  | authorExists
  | readingListNotFound
  | readingListExists
  deriving Repr, DecidableEq

/-! ### BookRepository (`repository.BookRepository`)

Each mutating operation returns the repository contents after the call
together with the Go `error` result (`none` = `nil`). -/

abbrev BookRepo := List (String × Book)

/-- Model of `BookRepository.Create`: fails with `ErrBookExists` on a stored
id, otherwise stamps both timestamps with `now` and stores a copy. -/
def BookRepo.create (r : BookRepo) (b : Book) (now : Nat) : BookRepo × Option RepoError :=
  if (lookupKey b.id r).isSome then
    (r, some .bookExists)
  else
    (r ++ [(b.id, { b with createdAt := now, updatedAt := now })], none)

/-- Model of `BookRepository.Get`: returns a copy or `ErrBookNotFound`. -/
def BookRepo.get (r : BookRepo) (id : String) : Except RepoError Book :=
  match lookupKey id r with
  | none => .error .bookNotFound
  | some b => .ok b

/-- Model of `BookRepository.Update`: fails with `ErrBookNotFound` on an absent
id, otherwise keeps the stored `createdAt`, stamps `updatedAt` with `now` and
replaces the stored copy. -/
def BookRepo.update (r : BookRepo) (b : Book) (now : Nat) : BookRepo × Option RepoError :=
  match lookupKey b.id r with
  | none => (r, some .bookNotFound)
  | some existing =>
      (replaceKey b.id { b with createdAt := existing.createdAt, updatedAt := now } r, none)

/-- Model of `BookRepository.Delete`. -/
def BookRepo.delete (r : BookRepo) (id : String) : BookRepo × Option RepoError :=
  if (lookupKey id r).isSome then
    (removeKey id r, none)
  else
    (r, some .bookNotFound)

/-- Model of `BookRepository.List` (copies of all stored books; order is the
unspecified map iteration order). -/
def BookRepo.list (r : BookRepo) : List Book :=
  r.map (fun p => p.2)

/-- Model of `BookRepository.FindByAuthor`. -/
def BookRepo.findByAuthor (r : BookRepo) (authorID : String) : List Book :=
  (BookRepo.list r).filter (fun b => b.authorID == authorID)

/-- Model of `BookRepository.Count`. -/
def BookRepo.count (r : BookRepo) : Nat :=
  r.length

/-! ### AuthorRepository (`repository.AuthorRepository`) -/

abbrev AuthorRepo := List (String × Author)

/-- Model of `AuthorRepository.Create`. -/
def AuthorRepo.create (r : AuthorRepo) (a : Author) (now : Nat) : AuthorRepo × Option RepoError :=
  if (lookupKey a.id r).isSome then
    (r, some .authorExists)
  else
    (r ++ [(a.id, { a with createdAt := now, updatedAt := now })], none)

/-- Model of `AuthorRepository.Get`. -/
def AuthorRepo.get (r : AuthorRepo) (id : String) : Except RepoError Author :=
  match lookupKey id r with
  | none => .error .authorNotFound
  | some a => .ok a

/-- Model of `AuthorRepository.Update`. -/
def AuthorRepo.update (r : AuthorRepo) (a : Author) (now : Nat) : AuthorRepo × Option RepoError :=
  match lookupKey a.id r with
  | none => (r, some .authorNotFound)
  | some existing =>
      (replaceKey a.id { a with createdAt := existing.createdAt, updatedAt := now } r, none)

/-- Model of `AuthorRepository.Delete`. -/
def AuthorRepo.delete (r : AuthorRepo) (id : String) : AuthorRepo × Option RepoError :=
  if (lookupKey id r).isSome then
    (removeKey id r, none)
  else
    (r, some .authorNotFound)

/-- Model of `AuthorRepository.List`. -/
def AuthorRepo.list (r : AuthorRepo) : List Author :=
  r.map (fun p => p.2)

/-- Model of `AuthorRepository.FindByCountry`. -/
def AuthorRepo.findByCountry (r : AuthorRepo) (country : String) : List Author :=
  (AuthorRepo.list r).filter (fun a => a.country == country)

/-- Model of `AuthorRepository.Count`. -/
def AuthorRepo.count (r : AuthorRepo) : Nat :=
  r.length

/-! ### ReadingListRepository (`repository.ReadingListRepository`)

The Go code normalises a nil `BookIDs` slice to an empty one and deep-copies
the slice on every read and write; under Lean's value semantics both are
identities, so they do not appear below. -/

abbrev RLRepo := List (String × ReadingList)

/-- Model of `ReadingListRepository.Create`. -/
def RLRepo.create (r : RLRepo) (l : ReadingList) (now : Nat) : RLRepo × Option RepoError :=
  if (lookupKey l.id r).isSome then
    (r, some .readingListExists)
  else
    (r ++ [(l.id, { l with createdAt := now, updatedAt := now })], none)

/-- Model of `ReadingListRepository.Get`. -/
def RLRepo.get (r : RLRepo) (id : String) : Except RepoError ReadingList :=
  match lookupKey id r with
  | none => .error .readingListNotFound
  | some l => .ok l

/-- Model of `ReadingListRepository.Update`. -/
def RLRepo.update (r : RLRepo) (l : ReadingList) (now : Nat) : RLRepo × Option RepoError :=
  match lookupKey l.id r with
  | none => (r, some .readingListNotFound)
  | some existing =>
      (replaceKey l.id { l with createdAt := existing.createdAt, updatedAt := now } r, none)

/-- Model of `ReadingListRepository.Delete`. -/
def RLRepo.delete (r : RLRepo) (id : String) : RLRepo × Option RepoError :=
  if (lookupKey id r).isSome then
    (removeKey id r, none)
  else
    (r, some .readingListNotFound)

/-- Model of `ReadingListRepository.List`. -/
def RLRepo.list (r : RLRepo) : List ReadingList :=
  r.map (fun p => p.2)

/-- Model of `ReadingListRepository.FindByBook`. -/
def RLRepo.findByBook (r : RLRepo) (bookID : String) : List ReadingList :=
  (RLRepo.list r).filter (fun l => l.containsBook bookID)

/-- Model of `ReadingListRepository.Count`. -/
def RLRepo.count (r : RLRepo) : Nat :=
  r.length

/-! ### Service layer errors

Go services declare their own sentinel errors (`service.ErrBookNotFound`, ...)
distinct from the repository sentinels; a repository error that a service
returns without translation is kept distinct here by the `repoErr` embedding,
mirroring the fact that `errors.Is(err, service.ErrX)` is false for it. -/

inductive SvcError where
  | invalidBook (msg : String)
  | bookNotFound
  | duplicateISBN
  | invalidAuthor (msg : String)
  | authorNotFound
  | invalidReadingList (msg : String)
  | readingListNotFound
  | bookAlreadyInList
  | bookNotInList
  | repoErr (e : RepoError)
  deriving Repr, DecidableEq

/-! ### BookService (`service.BookService`) -/

/-- Model of `BookService.CreateBook`: validate, scan `List()` for an ISBN
collision, then delegate to the repository (whose error is returned
untranslated). -/
def BookService.createBook (r : BookRepo) (b : Book) (now : Nat) :
    BookRepo × Option SvcError :=
  match b.validate with
  | some m => (r, some (.invalidBook m))
  | none =>
      if (BookRepo.list r).any (fun existing => existing.isbn == b.isbn) then
        (r, some .duplicateISBN)
      else
        match BookRepo.create r b now with
        | (r2, some e) => (r2, some (.repoErr e))
        | (r2, none) => (r2, none)

/-- Model of `BookService.GetBook`: `ErrBookNotFound` is translated to the
service-level sentinel, any other repository error passes through. -/
def BookService.getBook (r : BookRepo) (id : String) : Except SvcError Book :=
  match BookRepo.get r id with
  | .error .bookNotFound => .error .bookNotFound
  | .error e => .error (.repoErr e)
  | .ok b => .ok b

/-- Model of `BookService.UpdateBook`: validate, scan for an ISBN collision on
a different id, then delegate to the repository with not-found translation. -/
def BookService.updateBook (r : BookRepo) (b : Book) (now : Nat) :
    BookRepo × Option SvcError :=
  match b.validate with
  | some m => (r, some (.invalidBook m))
  | none =>
      if (BookRepo.list r).any
          (fun existing => existing.isbn == b.isbn && existing.id != b.id) then
        (r, some .duplicateISBN)
      else
        match BookRepo.update r b now with
        | (r2, some .bookNotFound) => (r2, some .bookNotFound)
        | (r2, some e) => (r2, some (.repoErr e))
        | (r2, none) => (r2, none)

/-- Model of `BookService.DeleteBook`. -/
def BookService.deleteBook (r : BookRepo) (id : String) : BookRepo × Option SvcError :=
  match BookRepo.delete r id with
  | (r2, some .bookNotFound) => (r2, some .bookNotFound)
  | (r2, some e) => (r2, some (.repoErr e))
  | (r2, none) => (r2, none)

/-! ### AuthorService (`service.AuthorService`) -/

/-- Model of `AuthorService.CreateAuthor`: validate, then delegate to
`AuthorRepository.Create`, whose error is returned untranslated. -/
def AuthorService.createAuthor (r : AuthorRepo) (a : Author) (now : Nat) :
    AuthorRepo × Option SvcError :=
  match a.validate with
  | some m => (r, some (.invalidAuthor m))
  | none =>
      match AuthorRepo.create r a now with
      | (r2, some e) => (r2, some (.repoErr e))
      | (r2, none) => (r2, none)

/-- Model of `AuthorService.UpdateAuthor`: validate, then delegate to
`AuthorRepository.Update` with not-found translation. -/
def AuthorService.updateAuthor (r : AuthorRepo) (a : Author) (now : Nat) :
    AuthorRepo × Option SvcError :=
  match a.validate with
  | some m => (r, some (.invalidAuthor m))
  | none =>
      match AuthorRepo.update r a now with
      | (r2, some .authorNotFound) => (r2, some .authorNotFound)
      | (r2, some e) => (r2, some (.repoErr e))
      | (r2, none) => (r2, none)

/-- Model of `AuthorService.DeleteAuthor`: delegate to
`AuthorRepository.Delete` with not-found translation. -/
def AuthorService.deleteAuthor (r : AuthorRepo) (id : String) :
    AuthorRepo × Option SvcError :=
  match AuthorRepo.delete r id with
  | (r2, some .authorNotFound) => (r2, some .authorNotFound)
  | (r2, some e) => (r2, some (.repoErr e))
  | (r2, none) => (r2, none)

/-! ### ReadingListService (`service.ReadingListService`) -/

/-- Model of `ReadingListService.CreateReadingList`. -/
def RLService.createReadingList (r : RLRepo) (l : ReadingList) (now : Nat) :
    RLRepo × Option SvcError :=
  match l.validate with
  | some m => (r, some (.invalidReadingList m))
  | none =>
      match RLRepo.create r l now with
      | (r2, some e) => (r2, some (.repoErr e))
      | (r2, none) => (r2, none)

/-- Model of `ReadingListService.GetReadingList`. -/
def RLService.getReadingList (r : RLRepo) (id : String) : Except SvcError ReadingList :=
  match RLRepo.get r id with
  | .error .readingListNotFound => .error .readingListNotFound
  | .error e => .error (.repoErr e)
  | .ok l => .ok l

/-- Model of `ReadingListService.UpdateReadingList`. -/
def RLService.updateReadingList (r : RLRepo) (l : ReadingList) (now : Nat) :
    RLRepo × Option SvcError :=
  match l.validate with
  | some m => (r, some (.invalidReadingList m))
  | none =>
      match RLRepo.update r l now with
      | (r2, some .readingListNotFound) => (r2, some .readingListNotFound)
      | (r2, some e) => (r2, some (.repoErr e))
      | (r2, none) => (r2, none)

/-- Model of `ReadingListService.DeleteReadingList`. -/
def RLService.deleteReadingList (r : RLRepo) (id : String) :
    RLRepo × Option SvcError :=
  match RLRepo.delete r id with
  | (r2, some .readingListNotFound) => (r2, some .readingListNotFound)
  | (r2, some e) => (r2, some (.repoErr e))
  | (r2, none) => (r2, none)

/-- Model of `ReadingListService.AddBookToList`: verify the book exists, get
the list, run `AddBook` on the returned copy, and persist it via `Update`
(whose error the Go code returns untranslated). Only the reading-list
repository can change; the book repository is only read. -/
def RLService.addBookToList (books : BookRepo) (lists : RLRepo)
    (listID bookID : String) (now : Nat) : RLRepo × Option SvcError :=
  match BookRepo.get books bookID with
  | .error .bookNotFound => (lists, some .bookNotFound)
  | .error e => (lists, some (.repoErr e))
  | .ok _ =>
      match RLRepo.get lists listID with
      | .error .readingListNotFound => (lists, some .readingListNotFound)
      | .error e => (lists, some (.repoErr e))
      | .ok l =>
          match l.addBook bookID with
          | (false, _) => (lists, some .bookAlreadyInList)
          | (true, l2) =>
              match RLRepo.update lists l2 now with
              | (r2, some e) => (r2, some (.repoErr e))
              | (r2, none) => (r2, none)

/-- Model of `ReadingListService.RemoveBookFromList`. -/
def RLService.removeBookFromList (lists : RLRepo) (listID bookID : String) (now : Nat) :
    RLRepo × Option SvcError :=
  match RLRepo.get lists listID with
  | .error .readingListNotFound => (lists, some .readingListNotFound)
  | .error e => (lists, some (.repoErr e))
  | .ok l =>
      match l.removeBook bookID with
      | (false, _) => (lists, some .bookNotInList)
      | (true, l2) =>
          match RLRepo.update lists l2 now with
          | (r2, some e) => (r2, some (.repoErr e))
          | (r2, none) => (r2, none)

/-! ### Book creation handler (`handler.BookHandler.createBook`)

The JSON decode step is outside the model; the handler model starts from the
decoded `Book` body. `respondJSON`/`respondError` calls are modelled by the
response constructors below. -/

inductive HandlerResp where
  | jsonOk (status : Nat) (book : Book)
  | jsonErr (status : Nat) (msg : String)
  deriving Repr, DecidableEq

/-- Model of `BookHandler.createBook` on an already-decoded body: the
`errors.Is` chain maps `ErrInvalidBook` to 400 with the wrapped message
(Go `fmt.Errorf` produces "invalid book data: <msg>") and `ErrDuplicateISBN`
to 409; every other error falls to the generic 500 response. On success the
Go handler serialises the caller's struct, which `repo.Create` has stamped
with both timestamps equal to `now`. -/
def BookHandler.createBook (r : BookRepo) (b : Book) (now : Nat) :
    BookRepo × HandlerResp :=
  match BookService.createBook r b now with
  | (r2, none) => (r2, .jsonOk 201 { b with createdAt := now, updatedAt := now })
  | (r2, some e) =>
      match e with
      | .invalidBook m => (r2, .jsonErr 400 ("invalid book data: " ++ m))
      | .duplicateISBN => (r2, .jsonErr 409 "Book with this ISBN already exists")
      | _ => (r2, .jsonErr 500 "Failed to create book")

/-! ### Basic Auth middleware (`middleware` package)

Strings entering this component are treated byte-per-character: the base64
alphabet and the "Basic " scheme tag are ASCII, and the decoded credential
bytes are lifted back to a string one `Char` per byte, so byte positions and
`Char` positions coincide everywhere a comparison happens. Go's
`strings.EqualFold(x, "Basic ")` holds exactly when the six bytes of `x`
match "Basic " ASCII-case-insensitively, which `asciiEqFold` captures. -/

/-- Value of one character of the standard base64 alphabet, `none` outside it. -/
def b64Val (c : Char) : Option Nat :=
  if 'A' ≤ c ∧ c ≤ 'Z' then some (c.toNat - 65)
  else if 'a' ≤ c ∧ c ≤ 'z' then some (c.toNat - 71)
  else if '0' ≤ c ∧ c ≤ '9' then some (c.toNat + 4)
  else if c = '+' then some 62
  else if c = '/' then some 63
  else none

/-- Decoder for a base64 character stream in groups of four, with `=` padding
allowed only at the end of the final group (the contract of Go
`base64.StdEncoding.DecodeString`); output bytes are values below 256. -/
def b64DecodeGroups : List Char → Option (List Nat)
  | [] => some []
  | c1 :: c2 :: c3 :: c4 :: rest =>
      match b64Val c1, b64Val c2 with
      | some v1, some v2 =>
          if c3 = '=' then
            if c4 = '=' ∧ rest = [] then some [v1 * 4 + v2 / 16] else none
          else
            match b64Val c3 with
            | some v3 =>
                if c4 = '=' then
                  if rest = [] then
                    some [v1 * 4 + v2 / 16, (v2 % 16) * 16 + v3 / 4]
                  else none
                else
                  match b64Val c4 with
                  | some v4 =>
                      (b64DecodeGroups rest).map (fun bs =>
                        (v1 * 4 + v2 / 16) :: ((v2 % 16) * 16 + v3 / 4) ::
                          ((v3 % 4) * 64 + v4) :: bs)
                  | none => none
            | none => none
      | _, _ => none
  | _ => none

/-- Model of `base64.StdEncoding.DecodeString`: the Go decoder skips carriage
returns and newlines, then consumes four-character groups. -/
def base64StdDecode (s : String) : Option (List Nat) :=
  b64DecodeGroups (s.toList.filter (fun c => c != '\r' && c != '\n'))

/-- ASCII-case-insensitive string equality, the restriction of
`strings.EqualFold` that is exact for a comparison against "Basic ". -/
def asciiEqFold (a b : String) : Bool :=
  a.toList.map Char.toLower == b.toList.map Char.toLower

/-- Lift of decoded credential bytes back to a string, one `Char` per byte
(Go builds `string(decoded)` and then compares bytewise). -/
def bytesToStr (bs : List Nat) : String :=
  String.mk (bs.map Char.ofNat)

/-- Model of `parseBasicAuth`: length guard, case-insensitive "Basic " scheme
tag, base64 decode of the remainder, split at the first colon byte (58); Go's
`IndexByte` split `s[:i]` / `s[i+1:]` is the `takeWhile` / `dropWhile`-`tail`
pair below. -/
def parseBasicAuth (auth : String) : Option (String × String) :=
  if auth.length < 6 then none
  else if !asciiEqFold (auth.take 6) "Basic " then none
  else
    match base64StdDecode (auth.drop 6) with
    | none => none
    | some bs =>
        if bs.contains 58 then
          some (bytesToStr (bs.takeWhile (fun x => x != 58)),
                bytesToStr ((bs.dropWhile (fun x => x != 58)).tail))
        else none

/-- Model of `middleware.Credentials`. -/
structure Credentials where
  username : String
  password : String
  deriving Repr, DecidableEq

/-- Model of `middleware.User`. -/
structure User where
  username : String
  role : String
  deriving Repr, DecidableEq

/-- Model of `middleware.InMemoryUserStore` (two maps filled by `AddUser`). -/
structure InMemoryUserStore where
  users : List (String × Credentials)
  roles : List (String × String)
  deriving Repr, DecidableEq

/-- Model of `InMemoryUserStore.AddUser` (Go map assignment: overwrite or insert). -/
def InMemoryUserStore.addUser (s : InMemoryUserStore)
    (username password role : String) : InMemoryUserStore :=
  { users :=
      if (lookupKey username s.users).isSome then
        replaceKey username ⟨username, password⟩ s.users
      else s.users ++ [(username, ⟨username, password⟩)],
    roles :=
      if (lookupKey username s.roles).isSome then
        replaceKey username role s.roles
      else s.roles ++ [(username, role)] }

/-- Model of `InMemoryUserStore.Authenticate`: user lookup, then password
comparison (`subtle.ConstantTimeCompare` returns 1 exactly on equal byte
strings); a missing role entry yields Go's zero value "". -/
def InMemoryUserStore.authenticate (s : InMemoryUserStore)
    (username password : String) : Option User :=
  match lookupKey username s.users with
  | none => none
  | some creds =>
      if creds.password == password then
        some { username := username, role := (lookupKey username s.roles).getD "" }
      else none

/-- Outcome of one request through the `BasicAuth` middleware: either the
wrapped handler ran with the given user attached to the request context, or
the middleware wrote a 401 carrying the given `WWW-Authenticate` value. -/
inductive AuthOutcome where
  | handled (user : User)
  | unauthorized (challenge : String)
  deriving Repr, DecidableEq

/-- Challenge header value written by `requireAuth`. -/
def basicAuthChallenge (realm : String) : String :=
  "Basic realm=\"" ++ realm ++ "\""

/-- Model of the `BasicAuth` middleware body for one request. -/
def basicAuth (store : InMemoryUserStore) (realm : String) (authHeader : String) :
    AuthOutcome :=
  match parseBasicAuth authHeader with
  | none => .unauthorized (basicAuthChallenge realm)
  | some (username, password) =>
      match store.authenticate username password with
      | none => .unauthorized (basicAuthChallenge realm)
      | some user => .handled user

/-! ### Operation traces

Traces of calls are used to state the timestamp and uniqueness invariants:
a step applies one Go method call at a given clock reading and keeps the
resulting repository contents (error or not). -/

/-- One repository-level call on the book repository. -/
inductive BookRepoOp where
  | create (b : Book)
  | update (b : Book)
  | delete (id : String)

/-- State after one repository call at clock reading `now` (errors leave the
map as the call left it). -/
def BookRepo.applyOp (r : BookRepo) (op : BookRepoOp) (now : Nat) : BookRepo :=
  match op with
  | .create b => (BookRepo.create r b now).1
  | .update b => (BookRepo.update r b now).1
  | .delete i => (BookRepo.delete r i).1

/-- State after a sequence of repository calls with their clock readings. -/
def BookRepo.run : BookRepo → List (BookRepoOp × Nat) → BookRepo
  | r, [] => r
  | r, (op, t) :: tr => BookRepo.run (BookRepo.applyOp r op t) tr

/-- Timestamp invariant: every stored book was updated no earlier than it was
created and no later than the current clock reading `t`. -/
def TsInv (r : BookRepo) (t : Nat) : Prop :=
  ∀ p ∈ r, p.2.createdAt ≤ p.2.updatedAt ∧ p.2.updatedAt ≤ t

/-- Chronological trace of operations of any kind: clock readings are at
least `t` and non-decreasing. -/
def ChronoFrom (t : Nat) : List (σ × Nat) → Prop
  | [] => True
  | (_, t2) :: tr => t ≤ t2 ∧ ChronoFrom t2 tr

/-- One repository-level call on the author repository. -/
inductive AuthorRepoOp where
  | create (a : Author)
  | update (a : Author)
  | delete (id : String)

/-- State of the author repository after one call at clock reading `now`. -/
def AuthorRepo.applyOp (r : AuthorRepo) (op : AuthorRepoOp) (now : Nat) : AuthorRepo :=
  match op with
  | .create a => (AuthorRepo.create r a now).1
  | .update a => (AuthorRepo.update r a now).1
  | .delete i => (AuthorRepo.delete r i).1

/-- State of the author repository after a sequence of calls. -/
def AuthorRepo.run : AuthorRepo → List (AuthorRepoOp × Nat) → AuthorRepo
  | r, [] => r
  | r, (op, t) :: tr => AuthorRepo.run (AuthorRepo.applyOp r op t) tr

/-- Timestamp invariant for the author repository. -/
def TsInvAuthor (r : AuthorRepo) (t : Nat) : Prop :=
  ∀ p ∈ r, p.2.createdAt ≤ p.2.updatedAt ∧ p.2.updatedAt ≤ t

/-- One repository-level call on the reading-list repository. -/
inductive RLRepoOp where
  | create (l : ReadingList)
  | update (l : ReadingList)
  | delete (id : String)

/-- State of the reading-list repository after one call at clock reading `now`. -/
def RLRepo.applyOp (r : RLRepo) (op : RLRepoOp) (now : Nat) : RLRepo :=
  match op with
  | .create l => (RLRepo.create r l now).1
  | .update l => (RLRepo.update r l now).1
  | .delete i => (RLRepo.delete r i).1

/-- State of the reading-list repository after a sequence of calls. -/
def RLRepo.run : RLRepo → List (RLRepoOp × Nat) → RLRepo
  | r, [] => r
  | r, (op, t) :: tr => RLRepo.run (RLRepo.applyOp r op t) tr

/-- Timestamp invariant for the reading-list repository. -/
def TsInvRL (r : RLRepo) (t : Nat) : Prop :=
  ∀ p ∈ r, p.2.createdAt ≤ p.2.updatedAt ∧ p.2.updatedAt ≤ t

/-- One service-level call on the book service. -/
inductive BookSvcOp where
  | create (b : Book)
  | update (b : Book)
  | delete (id : String)

/-- State after one book-service call at clock reading `now`. -/
def BookSvc.applyOp (r : BookRepo) (op : BookSvcOp) (now : Nat) : BookRepo :=
  match op with
  | .create b => (BookService.createBook r b now).1
  | .update b => (BookService.updateBook r b now).1
  | .delete i => (BookService.deleteBook r i).1

/-- State after a sequence of book-service calls. -/
def BookSvc.run : BookRepo → List (BookSvcOp × Nat) → BookRepo
  | r, [] => r
  | r, (op, t) :: tr => BookSvc.run (BookSvc.applyOp r op t) tr

/-- States of the book service: everything producible from the empty
repository by service calls. -/
def BookSvcReachable (r : BookRepo) : Prop :=
  ∃ tr, r = BookSvc.run [] tr

/-- Structural invariant of book-service states: every entry is keyed by its
book's id, and two stored books sharing an ISBN share their id (ISBN
uniqueness). -/
def BookRepoInv (r : BookRepo) : Prop :=
  (∀ p ∈ r, p.1 = p.2.id) ∧
  (∀ p ∈ r, ∀ q ∈ r, p.2.isbn = q.2.isbn → p.2.id = q.2.id)

/-! ### Toolkit lemmas about the association-list map model -/

@[simp]
theorem lookupKey_nil (k : String) : lookupKey k ([] : List (String × α)) = none := rfl

@[simp]
theorem lookupKey_cons (k : String) (p : String × α) (ps : List (String × α)) :
    lookupKey k (p :: ps) = if p.1 = k then some p.2 else lookupKey k ps := rfl

@[simp]
theorem replaceKey_nil (k : String) (v : α) : replaceKey k v ([] : List (String × α)) = [] := rfl

@[simp]
theorem replaceKey_cons (k : String) (v : α) (p : String × α) (ps : List (String × α)) :
    replaceKey k v (p :: ps) =
      (if p.1 = k then (k, v) else p) :: replaceKey k v ps := by
  simp [replaceKey]

@[simp]
theorem removeKey_nil (k : String) : removeKey k ([] : List (String × α)) = [] := rfl

@[simp]
theorem removeKey_cons (k : String) (p : String × α) (ps : List (String × α)) :
    removeKey k (p :: ps) =
      if p.1 = k then removeKey k ps else p :: removeKey k ps := by
  by_cases h : p.1 = k <;> simp [removeKey, List.filter_cons, h]

theorem lookupKey_eq_none_iff (k : String) (l : List (String × α)) :
    lookupKey k l = none ↔ ∀ p ∈ l, p.1 ≠ k := by
  induction l with
  | nil => simp
  | cons p ps ih =>
      by_cases h : p.1 = k
      · simp [h]
      · simp [h, ih]

theorem lookupKey_mem {k : String} {l : List (String × α)} {v : α}
    (h : lookupKey k l = some v) : (k, v) ∈ l := by
  induction l with
  | nil => simp at h
  | cons p ps ih =>
      by_cases hk : p.1 = k
      · simp only [lookupKey_cons, hk, if_true, Option.some.injEq] at h
        have : p = (k, v) := by
          cases p
          simp_all
        rw [← this]
        exact List.mem_cons_self p ps
      · simp only [lookupKey_cons, hk, if_false] at h
        exact List.mem_cons_of_mem p (ih h)

theorem lookupKey_append_of_none {k : String} {l₁ : List (String × α)}
    (l₂ : List (String × α)) (h : lookupKey k l₁ = none) :
    lookupKey k (l₁ ++ l₂) = lookupKey k l₂ := by
  induction l₁ with
  | nil => simp
  | cons p ps ih =>
      by_cases hk : p.1 = k
      · simp [hk] at h
      · simp only [hk, lookupKey_cons, if_false] at h
        simp [hk, ih h]

theorem lookupKey_append_of_some {k : String} {l₁ : List (String × α)} {v : α}
    (l₂ : List (String × α)) (h : lookupKey k l₁ = some v) :
    lookupKey k (l₁ ++ l₂) = some v := by
  induction l₁ with
  | nil => simp at h
  | cons p ps ih =>
      by_cases hk : p.1 = k
      · simp only [lookupKey_cons, hk, if_true, Option.some.injEq] at h
        simp [hk, h]
      · simp only [lookupKey_cons, hk, if_false] at h
        simp [hk, ih h]

theorem lookupKey_replaceKey_self {k : String} {l : List (String × α)} (v : α)
    (h : lookupKey k l ≠ none) :
    lookupKey k (replaceKey k v l) = some v := by
  induction l with
  | nil => simp at h
  | cons p ps ih =>
      by_cases hk : p.1 = k
      · simp [hk]
      · simp only [lookupKey_cons, hk, if_false] at h
        simp [hk, ih h]

theorem lookupKey_replaceKey_ne {k k' : String} {l : List (String × α)} (v : α)
    (h : k' ≠ k) :
    lookupKey k' (replaceKey k v l) = lookupKey k' l := by
  induction l with
  | nil => simp
  | cons p ps ih =>
      by_cases hk : p.1 = k
      · have hkk : ¬(k = k') := fun hh => h hh.symm
        simp [hk, hkk, ih]
      · simp [hk, ih]

theorem lookupKey_removeKey_self (k : String) (l : List (String × α)) :
    lookupKey k (removeKey k l) = none := by
  induction l with
  | nil => simp
  | cons p ps ih =>
      by_cases hk : p.1 = k
      · simp [hk, ih]
      · simp [hk, ih]

theorem lookupKey_removeKey_ne {k k' : String} (l : List (String × α)) (h : k' ≠ k) :
    lookupKey k' (removeKey k l) = lookupKey k' l := by
  induction l with
  | nil => simp
  | cons p ps ih =>
      by_cases hk : p.1 = k
      · have hne : ¬(p.1 = k') := by rw [hk]; exact fun hh => h hh.symm
        have hkk : ¬(k = k') := fun hh => h hh.symm
        simp [hk, hne, hkk, ih]
      · by_cases hk' : p.1 = k'
        · simp [hk, hk', h]
        · simp [hk, hk', ih]

theorem mem_replaceKey {k : String} {v : α} {l : List (String × α)} {p : String × α}
    (h : p ∈ replaceKey k v l) :
    p = (k, v) ∨ (p ∈ l ∧ p.1 ≠ k) := by
  simp only [replaceKey, List.mem_map] at h
  obtain ⟨q, hq, hqe⟩ := h
  by_cases hk : q.1 = k
  · left
    rw [if_pos hk] at hqe
    exact hqe.symm
  · right
    rw [if_neg hk] at hqe
    exact ⟨hqe ▸ hq, hqe ▸ hk⟩

theorem mem_removeKey {k : String} {l : List (String × α)} {p : String × α}
    (h : p ∈ removeKey k l) : p ∈ l ∧ p.1 ≠ k := by
  simp only [removeKey, List.mem_filter, bne_iff_ne] at h
  exact h

/-! ### Properties of first-occurrence removal -/

theorem removeFirst_eq_none_iff (b : String) (xs : List String) :
    removeFirst xs b = none ↔ b ∉ xs := by
  induction xs with
  | nil => simp [removeFirst]
  | cons x xs ih =>
      by_cases hx : x = b
      · simp [removeFirst, hx]
      · simp only [removeFirst, hx, if_false, Option.map_eq_none', List.mem_cons]
        constructor
        · intro h hmem
          rcases hmem with hmem | hmem
          · exact hx hmem.symm
          · exact (ih.mp h) hmem
        · intro h
          exact ih.mpr (fun hmem => h (Or.inr hmem))

theorem removeFirst_length {b : String} {xs ys : List String}
    (h : removeFirst xs b = some ys) : ys.length + 1 = xs.length := by
  induction xs generalizing ys with
  | nil => simp [removeFirst] at h
  | cons x xs ih =>
      by_cases hx : x = b
      · simp only [removeFirst, hx, if_true, Option.some.injEq] at h
        simp [← h]
      · simp only [removeFirst, hx, if_false, Option.map_eq_some'] at h
        obtain ⟨zs, hz, hze⟩ := h
        simp [← hze, ih hz]

theorem removeFirst_sublist {b : String} {xs ys : List String}
    (h : removeFirst xs b = some ys) : ys.Sublist xs := by
  induction xs generalizing ys with
  | nil => simp [removeFirst] at h
  | cons x xs ih =>
      by_cases hx : x = b
      · simp only [removeFirst, hx, if_true, Option.some.injEq] at h
        rw [← h]
        exact List.sublist_cons_self x xs
      · simp only [removeFirst, hx, if_false, Option.map_eq_some'] at h
        obtain ⟨zs, hz, hze⟩ := h
        rw [← hze]
        exact List.Sublist.cons₂ x (ih hz)

/-- Claim C4: `AddBook` returns true and appends the id at the end when it is
absent, and returns false leaving `BookIDs` unchanged when it is present;
`RemoveBook` returns true and shrinks the membership by exactly one with the
remaining ids keeping their relative order when the id is present, and
returns false leaving the list unchanged when it is absent; both operations
preserve duplicate-freedom of `BookIDs`. -/
theorem claim_C4_reading_list_membership (l : ReadingList) (bid : String) :
    (bid ∉ l.bookIDs →
        l.addBook bid = (true, { l with bookIDs := l.bookIDs ++ [bid] }))
    ∧ (bid ∈ l.bookIDs → l.addBook bid = (false, l))
    ∧ (bid ∈ l.bookIDs →
        (l.removeBook bid).1 = true
        ∧ (l.removeBook bid).2.bookIDs.length + 1 = l.bookIDs.length
        ∧ (l.removeBook bid).2.bookIDs.Sublist l.bookIDs)
    ∧ (bid ∉ l.bookIDs → l.removeBook bid = (false, l))
    ∧ (l.bookIDs.Nodup →
        (l.addBook bid).2.bookIDs.Nodup ∧ (l.removeBook bid).2.bookIDs.Nodup) := by
  refine ⟨?_, ?_, ?_, ?_, ?_⟩
  · intro h
    simp [ReadingList.addBook, h]
  · intro h
    simp [ReadingList.addBook, h]
  · intro h
    have hne : removeFirst l.bookIDs bid ≠ none := by
      rw [Ne, removeFirst_eq_none_iff]
      simpa using h
    obtain ⟨ys, hy⟩ := Option.ne_none_iff_exists'.mp hne
    refine ⟨?_, ?_, ?_⟩
    · simp [ReadingList.removeBook, hy]
    · simpa [ReadingList.removeBook, hy] using removeFirst_length hy
    · simpa [ReadingList.removeBook, hy] using removeFirst_sublist hy
  · intro h
    have hn : removeFirst l.bookIDs bid = none := (removeFirst_eq_none_iff _ _).mpr h
    simp [ReadingList.removeBook, hn]
  · intro hnd
    constructor
    · by_cases h : bid ∈ l.bookIDs
      · simpa [ReadingList.addBook, h] using hnd
      · simp only [ReadingList.addBook]
        have hc : l.bookIDs.contains bid = false := by simp [h]
        rw [hc]
        simpa [List.nodup_append] using ⟨hnd, h⟩
    · match hy : removeFirst l.bookIDs bid with
      | none => simpa [ReadingList.removeBook, hy] using hnd
      | some ys =>
          have := removeFirst_sublist hy
          simpa [ReadingList.removeBook, hy] using hnd.sublist this

/-- Witness for claim C4 at a concrete two-element list. -/
theorem claim_C4_witness :
    (ReadingList.addBook ⟨"L1", "N", "", ["b1", "b2"], 3, 3⟩ "b3"
        = (true, ⟨"L1", "N", "", ["b1", "b2", "b3"], 3, 3⟩))
    ∧ (ReadingList.addBook ⟨"L1", "N", "", ["b1", "b2"], 3, 3⟩ "b1"
        = (false, ⟨"L1", "N", "", ["b1", "b2"], 3, 3⟩))
    ∧ ((ReadingList.removeBook ⟨"L1", "N", "", ["b1", "b2"], 3, 3⟩ "b1").1 = true
        ∧ (ReadingList.removeBook ⟨"L1", "N", "", ["b1", "b2"], 3, 3⟩ "b1").2.bookIDs.length + 1 = 2)
    ∧ (ReadingList.removeBook ⟨"L1", "N", "", ["b1", "b2"], 3, 3⟩ "b3"
        = (false, ⟨"L1", "N", "", ["b1", "b2"], 3, 3⟩))
    ∧ (ReadingList.addBook ⟨"L1", "N", "", ["b1", "b2"], 3, 3⟩ "b3").2.bookIDs.Nodup := by
  refine ⟨?_, ?_, ⟨?_, ?_⟩, ?_, ?_⟩
  · exact (claim_C4_reading_list_membership ⟨"L1", "N", "", ["b1", "b2"], 3, 3⟩ "b3").1 (by decide)
  · exact (claim_C4_reading_list_membership ⟨"L1", "N", "", ["b1", "b2"], 3, 3⟩ "b1").2.1 (by decide)
  · exact ((claim_C4_reading_list_membership ⟨"L1", "N", "", ["b1", "b2"], 3, 3⟩ "b1").2.2.1 (by decide)).1
  · exact ((claim_C4_reading_list_membership ⟨"L1", "N", "", ["b1", "b2"], 3, 3⟩ "b1").2.2.1 (by decide)).2.1
  · exact (claim_C4_reading_list_membership ⟨"L1", "N", "", ["b1", "b2"], 3, 3⟩ "b3").2.2.2.1 (by decide)
  · exact ((claim_C4_reading_list_membership ⟨"L1", "N", "", ["b1", "b2"], 3, 3⟩ "b3").2.2.2.2 (by decide)).1

/-- Claim C5: `Book.Validate` reports the first violated rule in the fixed
order title presence, title length, ISBN presence, author-id presence, page
count, returns no error exactly when no rule is violated, accepts a zero
page count and rejects a negative one with the pages message. -/
theorem claim_C5_book_validate_order (b : Book) :
    (b.validate = none ↔
      (b.title ≠ "" ∧ b.title.utf8ByteSize ≤ 200 ∧ b.isbn ≠ "" ∧ b.authorID ≠ ""
        ∧ 0 ≤ b.pages))
    ∧ (b.title = "" → b.validate = some "title is required")
    ∧ (b.title ≠ "" → 200 < b.title.utf8ByteSize →
        b.validate = some "title must be 200 characters or less")
    ∧ (b.title ≠ "" → b.title.utf8ByteSize ≤ 200 → b.isbn = "" →
        b.validate = some "isbn is required")
    ∧ (b.title ≠ "" → b.title.utf8ByteSize ≤ 200 → b.isbn ≠ "" → b.authorID = "" →
        b.validate = some "author_id is required")
    ∧ (b.title ≠ "" → b.title.utf8ByteSize ≤ 200 → b.isbn ≠ "" → b.authorID ≠ "" →
        b.pages < 0 → b.validate = some "pages cannot be negative")
    ∧ (b.pages = 0 → b.title ≠ "" → b.title.utf8ByteSize ≤ 200 → b.isbn ≠ "" →
        b.authorID ≠ "" → b.validate = none) := by
  unfold Book.validate
  refine ⟨?_, ?_, ?_, ?_, ?_, ?_, ?_⟩
  · split_ifs with h1 h2 h3 h4 h5 <;> simp_all
  · intro h
    simp [h]
  · intro h1 h2
    simp [h1, h2, Nat.not_le.mpr h2]
  · intro h1 h2 h3
    simp [h1, h3, Nat.not_lt.mpr h2]
  · intro h1 h2 h3 h4
    simp [h1, h3, h4, Nat.not_lt.mpr h2]
  · intro h1 h2 h3 h4 h5
    simp [h1, h3, h4, h5, Nat.not_lt.mpr h2]
  · intro h0 h1 h2 h3 h4
    simp [h1, h3, h4, Nat.not_lt.mpr h2, h0]

/-! ### Byte-size helpers for boundary witnesses -/

theorem utf8_go_repl (c : Char) : ∀ n : Nat,
    String.utf8ByteSize.go (List.replicate n c) = n * c.utf8Size := by
  intro n
  induction n with
  | zero => simp [List.replicate, String.utf8ByteSize.go]
  | succ k ih =>
      simp only [List.replicate, String.utf8ByteSize.go, ih]
      show k * c.utf8Size + c.utf8Size = (k + 1) * c.utf8Size
      ring

theorem utf8_repl (n : Nat) (c : Char) :
    (String.mk (List.replicate n c)).utf8ByteSize = n * c.utf8Size :=
  utf8_go_repl c n

theorem ne_empty_of_utf8ByteSize_ne_zero {s : String} (h : s.utf8ByteSize ≠ 0) :
    s ≠ "" := by
  intro he
  rw [he] at h
  exact h rfl

/-- Witness for claim C5 at concrete books exercising every branch of the
validation order. -/
theorem claim_C5_witness :
    (Book.validate ⟨"b1", "T", "123", "a1", 0, 0, "", 0, 0⟩ = none)
    ∧ (Book.validate ⟨"b1", "", "123", "a1", 0, 5, "", 0, 0⟩ = some "title is required")
    ∧ (Book.validate ⟨"b1", String.mk (List.replicate 201 'a'), "123", "a1", 0, 5, "", 0, 0⟩
        = some "title must be 200 characters or less")
    ∧ (Book.validate ⟨"b1", "T", "", "a1", 0, 5, "", 0, 0⟩ = some "isbn is required")
    ∧ (Book.validate ⟨"b1", "T", "123", "", 0, 5, "", 0, 0⟩ = some "author_id is required")
    ∧ (Book.validate ⟨"b1", "T", "123", "a1", 0, -1, "", 0, 0⟩
        = some "pages cannot be negative") := by
  have hsz : (String.mk (List.replicate 201 'a')).utf8ByteSize = 201 := by
    rw [utf8_repl]
    decide
  refine ⟨?_, ?_, ?_, ?_, ?_, ?_⟩
  · exact (claim_C5_book_validate_order _).2.2.2.2.2.2 (by decide) (by decide) (by decide)
      (by decide) (by decide)
  · exact (claim_C5_book_validate_order _).2.1 (by decide)
  · exact (claim_C5_book_validate_order _).2.2.1
      (ne_empty_of_utf8ByteSize_ne_zero (by rw [hsz]; decide)) (by rw [hsz]; decide)
  · exact (claim_C5_book_validate_order _).2.2.2.1 (by decide) (by decide) (by decide)
  · exact (claim_C5_book_validate_order _).2.2.2.2.1 (by decide) (by decide) (by decide)
      (by decide)
  · exact (claim_C5_book_validate_order _).2.2.2.2.2.1 (by decide) (by decide) (by decide)
      (by decide) (by decide)

/-- Claim C6: every length limit is exact at the boundary (Go `len`, i.e. byte
length): a 200-byte book title passes and a 201-byte one fails, a 100-byte
author name passes and a 101-byte one fails, a 2000-byte author bio passes
and a 2001-byte one fails, a 100-byte reading-list name passes and a
101-byte one fails, a 500-byte description passes and a 501-byte one fails,
with the other validation rules satisfied. -/
theorem claim_C6_length_boundaries :
    (∀ b : Book, b.title.utf8ByteSize = 200 → b.isbn ≠ "" → b.authorID ≠ "" →
        0 ≤ b.pages → b.validate = none)
    ∧ (∀ b : Book, b.title.utf8ByteSize = 201 →
        b.validate = some "title must be 200 characters or less")
    ∧ (∀ a : Author, a.name.utf8ByteSize = 100 → a.bio.utf8ByteSize ≤ 2000 →
        a.validate = none)
    ∧ (∀ a : Author, a.name.utf8ByteSize = 101 →
        a.validate = some "name must be 100 characters or less")
    ∧ (∀ a : Author, a.name ≠ "" → a.name.utf8ByteSize ≤ 100 →
        a.bio.utf8ByteSize = 2000 → a.validate = none)
    ∧ (∀ a : Author, a.name ≠ "" → a.name.utf8ByteSize ≤ 100 →
        a.bio.utf8ByteSize = 2001 →
        a.validate = some "bio must be 2000 characters or less")
    ∧ (∀ r : ReadingList, r.name.utf8ByteSize = 100 → r.description.utf8ByteSize ≤ 500 →
        r.validate = none)
    ∧ (∀ r : ReadingList, r.name.utf8ByteSize = 101 →
        r.validate = some "name must be 100 characters or less")
    ∧ (∀ r : ReadingList, r.name ≠ "" → r.name.utf8ByteSize ≤ 100 →
        r.description.utf8ByteSize = 500 → r.validate = none)
    ∧ (∀ r : ReadingList, r.name ≠ "" → r.name.utf8ByteSize ≤ 100 →
        r.description.utf8ByteSize = 501 →
        r.validate = some "description must be 500 characters or less") := by
  refine ⟨?_, ?_, ?_, ?_, ?_, ?_, ?_, ?_, ?_, ?_⟩
  · intro b hsz hisbn hauthor hpages
    have ht : b.title ≠ "" := ne_empty_of_utf8ByteSize_ne_zero (by omega)
    simp [Book.validate, ht, hisbn, hauthor, hsz, Int.not_lt.mpr hpages]
  · intro b hsz
    have ht : b.title ≠ "" := ne_empty_of_utf8ByteSize_ne_zero (by omega)
    simp [Book.validate, ht, hsz]
  · intro a hsz hbio
    have hn : a.name ≠ "" := ne_empty_of_utf8ByteSize_ne_zero (by omega)
    simp [Author.validate, hn, hsz, Nat.not_lt.mpr hbio]
  · intro a hsz
    have hn : a.name ≠ "" := ne_empty_of_utf8ByteSize_ne_zero (by omega)
    simp [Author.validate, hn, hsz]
  · intro a hn hlen hbio
    simp [Author.validate, hn, hbio, Nat.not_lt.mpr hlen]
  · intro a hn hlen hbio
    simp [Author.validate, hn, hbio, Nat.not_lt.mpr hlen]
  · intro r hsz hdesc
    have hn : r.name ≠ "" := ne_empty_of_utf8ByteSize_ne_zero (by omega)
    simp [ReadingList.validate, hn, hsz, Nat.not_lt.mpr hdesc]
  · intro r hsz
    have hn : r.name ≠ "" := ne_empty_of_utf8ByteSize_ne_zero (by omega)
    simp [ReadingList.validate, hn, hsz]
  · intro r hn hlen hdesc
    simp [ReadingList.validate, hn, hdesc, Nat.not_lt.mpr hlen]
  · intro r hn hlen hdesc
    simp [ReadingList.validate, hn, hdesc, Nat.not_lt.mpr hlen]

/-- Witness for claim C6 at concrete boundary strings made of 'a' bytes. -/
theorem claim_C6_witness :
    (Book.validate ⟨"b1", String.mk (List.replicate 200 'a'), "123", "a1", 0, 1, "", 0, 0⟩ = none)
    ∧ (Book.validate ⟨"b1", String.mk (List.replicate 201 'a'), "123", "a1", 0, 1, "", 0, 0⟩
        = some "title must be 200 characters or less")
    ∧ (Author.validate ⟨"a1", String.mk (List.replicate 100 'a'), "bio", 0, "USA", 0, 0⟩ = none)
    ∧ (Author.validate ⟨"a1", String.mk (List.replicate 101 'a'), "bio", 0, "USA", 0, 0⟩
        = some "name must be 100 characters or less")
    ∧ (Author.validate ⟨"a1", "N", String.mk (List.replicate 2000 'a'), 0, "USA", 0, 0⟩ = none)
    ∧ (Author.validate ⟨"a1", "N", String.mk (List.replicate 2001 'a'), 0, "USA", 0, 0⟩
        = some "bio must be 2000 characters or less")
    ∧ (ReadingList.validate ⟨"L1", String.mk (List.replicate 100 'a'), "", [], 0, 0⟩ = none)
    ∧ (ReadingList.validate ⟨"L1", String.mk (List.replicate 101 'a'), "", [], 0, 0⟩
        = some "name must be 100 characters or less")
    ∧ (ReadingList.validate ⟨"L1", "N", String.mk (List.replicate 500 'a'), [], 0, 0⟩ = none)
    ∧ (ReadingList.validate ⟨"L1", "N", String.mk (List.replicate 501 'a'), [], 0, 0⟩
        = some "description must be 500 characters or less") := by
  have h200 : (String.mk (List.replicate 200 'a')).utf8ByteSize = 200 := by
    rw [utf8_repl]; decide
  have h201 : (String.mk (List.replicate 201 'a')).utf8ByteSize = 201 := by
    rw [utf8_repl]; decide
  have h100 : (String.mk (List.replicate 100 'a')).utf8ByteSize = 100 := by
    rw [utf8_repl]; decide
  have h101 : (String.mk (List.replicate 101 'a')).utf8ByteSize = 101 := by
    rw [utf8_repl]; decide
  have h2000 : (String.mk (List.replicate 2000 'a')).utf8ByteSize = 2000 := by
    rw [utf8_repl]; decide
  have h2001 : (String.mk (List.replicate 2001 'a')).utf8ByteSize = 2001 := by
    rw [utf8_repl]; decide
  have h500 : (String.mk (List.replicate 500 'a')).utf8ByteSize = 500 := by
    rw [utf8_repl]; decide
  have h501 : (String.mk (List.replicate 501 'a')).utf8ByteSize = 501 := by
    rw [utf8_repl]; decide
  refine ⟨?_, ?_, ?_, ?_, ?_, ?_, ?_, ?_, ?_, ?_⟩
  · exact claim_C6_length_boundaries.1 _ h200 (by decide) (by decide) (by decide)
  · exact claim_C6_length_boundaries.2.1 _ h201
  · exact claim_C6_length_boundaries.2.2.1 _ h100 (by decide)
  · exact claim_C6_length_boundaries.2.2.2.1 _ h101
  · exact claim_C6_length_boundaries.2.2.2.2.1 _ (by decide) (by decide) h2000
  · exact claim_C6_length_boundaries.2.2.2.2.2.1 _ (by decide) (by decide) h2001
  · exact claim_C6_length_boundaries.2.2.2.2.2.2.1 _ h100 (by decide)
  · exact claim_C6_length_boundaries.2.2.2.2.2.2.2.1 _ h101
  · exact claim_C6_length_boundaries.2.2.2.2.2.2.2.2.1 _ (by decide) (by decide) h500
  · exact claim_C6_length_boundaries.2.2.2.2.2.2.2.2.2 _ (by decide) (by decide) h501

/-! ### Result shapes of the book service calls -/

theorem createBook_invalid {b : Book} {m : String} (hv : b.validate = some m)
    (r : BookRepo) (now : Nat) :
    BookService.createBook r b now = (r, some (.invalidBook m)) := by
  simp [BookService.createBook, hv]

theorem createBook_dup {r : BookRepo} {b : Book} (hv : b.validate = none)
    (hdup : ∃ x ∈ BookRepo.list r, x.isbn = b.isbn) (now : Nat) :
    BookService.createBook r b now = (r, some .duplicateISBN) := by
  have hsc : (BookRepo.list r).any (fun ex => ex.isbn == b.isbn) = true := by
    rw [List.any_eq_true]
    obtain ⟨x, hx, he⟩ := hdup
    exact ⟨x, hx, by simp [he]⟩
  simp [BookService.createBook, hv, hsc]

theorem createBook_id_exists {r : BookRepo} {b : Book} (hv : b.validate = none)
    (hno : ∀ x ∈ BookRepo.list r, x.isbn ≠ b.isbn)
    (hid : lookupKey b.id r ≠ none) (now : Nat) :
    BookService.createBook r b now = (r, some (.repoErr .bookExists)) := by
  have hsc : (BookRepo.list r).any (fun ex => ex.isbn == b.isbn) = false := by
    rw [List.any_eq_false]
    intro x hx
    simp [hno x hx]
  have hid' : (lookupKey b.id r).isSome := Option.ne_none_iff_isSome.mp hid
  simp [BookService.createBook, hv, hsc, BookRepo.create, hid']

theorem createBook_ok {r : BookRepo} {b : Book} (hv : b.validate = none)
    (hno : ∀ x ∈ BookRepo.list r, x.isbn ≠ b.isbn)
    (hid : lookupKey b.id r = none) (now : Nat) :
    BookService.createBook r b now =
      (r ++ [(b.id, { b with createdAt := now, updatedAt := now })], none) := by
  have hsc : (BookRepo.list r).any (fun ex => ex.isbn == b.isbn) = false := by
    rw [List.any_eq_false]
    intro x hx
    simp [hno x hx]
  simp [BookService.createBook, hv, hsc, BookRepo.create, hid]

theorem updateBook_invalid {b : Book} {m : String} (hv : b.validate = some m)
    (r : BookRepo) (now : Nat) :
    BookService.updateBook r b now = (r, some (.invalidBook m)) := by
  simp [BookService.updateBook, hv]

theorem updateBook_dup {r : BookRepo} {b : Book} (hv : b.validate = none)
    (hdup : ∃ x ∈ BookRepo.list r, x.isbn = b.isbn ∧ x.id ≠ b.id) (now : Nat) :
    BookService.updateBook r b now = (r, some .duplicateISBN) := by
  have hsc : (BookRepo.list r).any (fun ex => ex.isbn == b.isbn && ex.id != b.id) = true := by
    rw [List.any_eq_true]
    obtain ⟨x, hx, he, hi⟩ := hdup
    exact ⟨x, hx, by simp [he, hi]⟩
  simp [BookService.updateBook, hv, hsc]

theorem updateBook_notFound {r : BookRepo} {b : Book} (hv : b.validate = none)
    (hno : ∀ x ∈ BookRepo.list r, x.isbn = b.isbn → x.id = b.id)
    (hid : lookupKey b.id r = none) (now : Nat) :
    BookService.updateBook r b now = (r, some .bookNotFound) := by
  have hsc : (BookRepo.list r).any (fun ex => ex.isbn == b.isbn && ex.id != b.id) = false := by
    rw [List.any_eq_false]
    intro x hx
    by_cases he : x.isbn = b.isbn
    · simp [he, hno x hx he]
    · simp [he]
  simp [BookService.updateBook, hv, hsc, BookRepo.update, hid]

theorem updateBook_ok {r : BookRepo} {b : Book} {ex : Book} (hv : b.validate = none)
    (hno : ∀ x ∈ BookRepo.list r, x.isbn = b.isbn → x.id = b.id)
    (hid : lookupKey b.id r = some ex) (now : Nat) :
    BookService.updateBook r b now =
      (replaceKey b.id { b with createdAt := ex.createdAt, updatedAt := now } r, none) := by
  have hsc : (BookRepo.list r).any (fun ex => ex.isbn == b.isbn && ex.id != b.id) = false := by
    rw [List.any_eq_false]
    intro x hx
    by_cases he : x.isbn = b.isbn
    · simp [he, hno x hx he]
    · simp [he]
  simp [BookService.updateBook, hv, hsc, BookRepo.update, hid]

/-! ### The book-service invariant holds in every reachable state -/

theorem mem_list_iff {r : BookRepo} {x : Book} :
    x ∈ BookRepo.list r ↔ ∃ p ∈ r, p.2 = x := by
  simp [BookRepo.list]

theorem inv_createBook (r : BookRepo) (b : Book) (now : Nat) (h : BookRepoInv r) :
    BookRepoInv (BookService.createBook r b now).1 := by
  match hv : b.validate with
  | some m =>
      rw [createBook_invalid hv]
      exact h
  | none =>
      by_cases hdup : ∃ x ∈ BookRepo.list r, x.isbn = b.isbn
      · rw [createBook_dup hv hdup]
        exact h
      · push_neg at hdup
        by_cases hid : lookupKey b.id r = none
        · rw [createBook_ok hv hdup hid]
          obtain ⟨hwf, huniq⟩ := h
          constructor
          · intro p hp
            rcases List.mem_append.mp hp with hp | hp
            · exact hwf p hp
            · simp at hp
              simp [hp]
          · intro p hp q hq
            rcases List.mem_append.mp hp with hp | hp <;>
              rcases List.mem_append.mp hq with hq | hq
            · exact huniq p hp q hq
            · simp at hq
              intro hel
              exact absurd (by simpa [hq] using hel)
                (hdup p.2 (mem_list_iff.mpr ⟨p, hp, rfl⟩))
            · simp at hp
              intro hel
              exact absurd (by simpa [hp] using hel.symm)
                (hdup q.2 (mem_list_iff.mpr ⟨q, hq, rfl⟩))
            · simp at hp hq
              simp [hp, hq]
        · rw [createBook_id_exists hv hdup hid]
          exact h

theorem inv_updateBook (r : BookRepo) (b : Book) (now : Nat) (h : BookRepoInv r) :
    BookRepoInv (BookService.updateBook r b now).1 := by
  match hv : b.validate with
  | some m =>
      rw [updateBook_invalid hv]
      exact h
  | none =>
      by_cases hdup : ∃ x ∈ BookRepo.list r, x.isbn = b.isbn ∧ x.id ≠ b.id
      · rw [updateBook_dup hv hdup]
        exact h
      · push_neg at hdup
        match hid : lookupKey b.id r with
        | none =>
            rw [updateBook_notFound hv hdup hid]
            exact h
        | some ex =>
            rw [updateBook_ok hv hdup hid]
            obtain ⟨hwf, huniq⟩ := h
            constructor
            · intro p hp
              rcases mem_replaceKey hp with hp | ⟨hp, _⟩
              · simp [hp]
              · exact hwf p hp
            · intro p hp q hq
              rcases mem_replaceKey hp with hp | ⟨hp, hpk⟩ <;>
                rcases mem_replaceKey hq with hq | ⟨hq, hqk⟩
              · simp [hp, hq]
              · simp only [hp]
                intro hel
                have := hdup q.2 (mem_list_iff.mpr ⟨q, hq, rfl⟩) hel.symm
                simp [this]
              · simp only [hq]
                intro hel
                have := hdup p.2 (mem_list_iff.mpr ⟨p, hp, rfl⟩) hel
                simp [this]
              · exact huniq p hp q hq

theorem inv_deleteBook (r : BookRepo) (id : String) (h : BookRepoInv r) :
    BookRepoInv (BookService.deleteBook r id).1 := by
  obtain ⟨hwf, huniq⟩ := h
  unfold BookService.deleteBook BookRepo.delete
  by_cases hid : (lookupKey id r).isSome
  · simp only [hid, if_true]
    refine ⟨?_, ?_⟩
    · intro p hp
      exact hwf p (mem_removeKey hp).1
    · intro p hp q hq
      exact huniq p (mem_removeKey hp).1 q (mem_removeKey hq).1
  · simp only [hid, if_false]
    exact ⟨hwf, huniq⟩

theorem inv_applyOp (r : BookRepo) (op : BookSvcOp) (now : Nat) (h : BookRepoInv r) :
    BookRepoInv (BookSvc.applyOp r op now) := by
  match op with
  | .create b => exact inv_createBook r b now h
  | .update b => exact inv_updateBook r b now h
  | .delete i => exact inv_deleteBook r i h

theorem inv_run (r : BookRepo) (tr : List (BookSvcOp × Nat)) (h : BookRepoInv r) :
    BookRepoInv (BookSvc.run r tr) := by
  induction tr generalizing r with
  | nil => exact h
  | cons e tr ih =>
      exact ih _ (inv_applyOp r e.1 e.2 h)

theorem reachable_inv {r : BookRepo} (h : BookSvcReachable r) : BookRepoInv r := by
  obtain ⟨tr, rfl⟩ := h
  exact inv_run [] tr ⟨by simp, by simp⟩

/-- Claim C1 (amended): for every state, `CreateBook` on a valid book fails
with `DuplicateISBN` exactly when some stored book has the same ISBN, and
succeeds when no stored book has the ISBN and additionally the book's id is
not already stored; `UpdateBook` on a valid book whose id is stored fails
with `DuplicateISBN` exactly when some stored book with a different id has
the same ISBN, so in every service-reachable state an update that keeps the
book's own unchanged ISBN succeeds. -/
theorem claim_C1_isbn_uniqueness (r : BookRepo) (b : Book) (now : Nat)
    (hv : b.validate = none) :
    ((BookService.createBook r b now).2 = some .duplicateISBN ↔
        ∃ x ∈ BookRepo.list r, x.isbn = b.isbn)
    ∧ ((∀ x ∈ BookRepo.list r, x.isbn ≠ b.isbn) → lookupKey b.id r = none →
        (BookService.createBook r b now).2 = none)
    ∧ (lookupKey b.id r ≠ none →
        ((BookService.updateBook r b now).2 = some .duplicateISBN ↔
          ∃ x ∈ BookRepo.list r, x.isbn = b.isbn ∧ x.id ≠ b.id))
    ∧ (∀ st, BookSvcReachable r → lookupKey b.id r = some st → st.isbn = b.isbn →
        (BookService.updateBook r b now).2 = none) := by
  refine ⟨?_, ?_, ?_, ?_⟩
  · constructor
    · intro hres
      by_cases hdup : ∃ x ∈ BookRepo.list r, x.isbn = b.isbn
      · exact hdup
      · push_neg at hdup
        by_cases hid : lookupKey b.id r = none
        · rw [createBook_ok hv hdup hid] at hres
          simp at hres
        · rw [createBook_id_exists hv hdup hid] at hres
          simp at hres
    · intro hdup
      rw [createBook_dup hv hdup]
  · intro hno hid
    rw [createBook_ok hv hno hid]
  · intro hid
    constructor
    · intro hres
      by_cases hdup : ∃ x ∈ BookRepo.list r, x.isbn = b.isbn ∧ x.id ≠ b.id
      · exact hdup
      · push_neg at hdup
        match hl : lookupKey b.id r with
        | none => exact absurd hl hid
        | some ex =>
            rw [updateBook_ok hv hdup hl] at hres
            simp at hres
    · intro hdup
      rw [updateBook_dup hv hdup]
  · intro st hreach hl hisbn
    have hinv := reachable_inv hreach
    have hstmem : (b.id, st) ∈ r := lookupKey_mem hl
    have hstid : st.id = b.id := (hinv.1 (b.id, st) hstmem).symm
    have hno : ∀ x ∈ BookRepo.list r, x.isbn = b.isbn → x.id = b.id := by
      intro x hx he
      obtain ⟨p, hp, hpx⟩ := mem_list_iff.mp hx
      have := hinv.2 p hp (b.id, st) hstmem (by rw [hpx, he, hisbn])
      rw [hpx] at this
      rw [this, hstid]
    rw [updateBook_ok hv hno hl]

/-- Counterexample to claim C1 as stated: in the service-reachable state
holding one book with id "b1" and ISBN "i1", creating a valid book with the
same id "b1" but a fresh ISBN "i2" does not succeed (the repository's
already-exists error comes back), although no stored book has the new ISBN. -/
theorem claim_C1_counterexample :
    Book.validate ⟨"b1", "T", "i2", "a1", 0, 1, "", 0, 0⟩ = none
    ∧ (∀ x ∈ BookRepo.list
        (BookSvc.run [] [(BookSvcOp.create ⟨"b1", "S", "i1", "a1", 0, 1, "", 0, 0⟩, 1)]),
        x.isbn ≠ "i2")
    ∧ (BookService.createBook
        (BookSvc.run [] [(BookSvcOp.create ⟨"b1", "S", "i1", "a1", 0, 1, "", 0, 0⟩, 1)])
        ⟨"b1", "T", "i2", "a1", 0, 1, "", 0, 0⟩ 5).2
        = some (SvcError.repoErr RepoError.bookExists) := by
  decide

/-- Witness for claim C1 in small service-reachable states. -/
theorem claim_C1_witness :
    ((BookService.createBook
        (BookSvc.run [] [(BookSvcOp.create ⟨"b1", "S", "i1", "a1", 0, 1, "", 0, 0⟩, 1)])
        ⟨"b2", "T", "i1", "a1", 0, 1, "", 0, 0⟩ 5).2 = some SvcError.duplicateISBN)
    ∧ ((BookService.createBook
        (BookSvc.run [] [(BookSvcOp.create ⟨"b1", "S", "i1", "a1", 0, 1, "", 0, 0⟩, 1)])
        ⟨"b2", "T", "i2", "a1", 0, 1, "", 0, 0⟩ 5).2 = none)
    ∧ ((BookService.updateBook
        (BookSvc.run [] [(BookSvcOp.create ⟨"b1", "S", "i1", "a1", 0, 1, "", 0, 0⟩, 1),
          (BookSvcOp.create ⟨"b2", "T", "i3", "a1", 0, 1, "", 0, 0⟩, 2)])
        ⟨"b2", "X", "i1", "a1", 0, 1, "", 0, 0⟩ 5).2 = some SvcError.duplicateISBN)
    ∧ ((BookService.updateBook
        (BookSvc.run [] [(BookSvcOp.create ⟨"b1", "S", "i1", "a1", 0, 1, "", 0, 0⟩, 1)])
        ⟨"b1", "T", "i1", "a1", 0, 1, "", 0, 0⟩ 5).2 = none) := by
  refine ⟨?_, ?_, ?_, ?_⟩
  · exact (claim_C1_isbn_uniqueness _ _ 5 (by decide)).1.mpr (by decide)
  · exact (claim_C1_isbn_uniqueness _ _ 5 (by decide)).2.1 (by decide) (by decide)
  · exact ((claim_C1_isbn_uniqueness _ _ 5 (by decide)).2.2.1 (by decide)).mpr (by decide)
  · exact (claim_C1_isbn_uniqueness _ _ 5 (by decide)).2.2.2
      ⟨"b1", "S", "i1", "a1", 0, 1, "", 1, 1⟩
      ⟨[(BookSvcOp.create ⟨"b1", "S", "i1", "a1", 0, 1, "", 0, 0⟩, 1)], rfl⟩
      (by decide) (by decide)

/-- Claim C2: `AddBookToList` fails with `BookNotFound` when the book id is
not stored (taking priority over every other check), else with
`ReadingListNotFound` when the list id is not stored, else with
`BookAlreadyInList` when the book is already a member, and otherwise appends
the book id and persists the updated list; `RemoveBookFromList` fails with
`ReadingListNotFound` when the list is absent, else with `BookNotInList`
when the book is not a member, and otherwise removes it and persists. -/
theorem claim_C2_list_membership_service (books : BookRepo) (lists : RLRepo)
    (listID bookID : String) (now : Nat) :
    (lookupKey bookID books = none →
        RLService.addBookToList books lists listID bookID now
          = (lists, some .bookNotFound))
    ∧ (lookupKey bookID books ≠ none → lookupKey listID lists = none →
        RLService.addBookToList books lists listID bookID now
          = (lists, some .readingListNotFound))
    ∧ (∀ l, lookupKey bookID books ≠ none → lookupKey listID lists = some l →
        bookID ∈ l.bookIDs →
        RLService.addBookToList books lists listID bookID now
          = (lists, some .bookAlreadyInList))
    ∧ (∀ l, lookupKey bookID books ≠ none → lookupKey listID lists = some l →
        bookID ∉ l.bookIDs → l.id = listID →
        ((RLService.addBookToList books lists listID bookID now).2 = none
          ∧ lookupKey listID (RLService.addBookToList books lists listID bookID now).1
              = some { l with bookIDs := l.bookIDs ++ [bookID], updatedAt := now }))
    ∧ (lookupKey listID lists = none →
        RLService.removeBookFromList lists listID bookID now
          = (lists, some .readingListNotFound))
    ∧ (∀ l, lookupKey listID lists = some l → bookID ∉ l.bookIDs →
        RLService.removeBookFromList lists listID bookID now
          = (lists, some .bookNotInList))
    ∧ (∀ l, lookupKey listID lists = some l → bookID ∈ l.bookIDs → l.id = listID →
        ((RLService.removeBookFromList lists listID bookID now).2 = none
          ∧ ∃ ids, removeFirst l.bookIDs bookID = some ids ∧
              lookupKey listID (RLService.removeBookFromList lists listID bookID now).1
                = some { l with bookIDs := ids, updatedAt := now })) := by
  refine ⟨?_, ?_, ?_, ?_, ?_, ?_, ?_⟩
  · intro hb
    simp [RLService.addBookToList, BookRepo.get, hb]
  · intro hb hl
    obtain ⟨bk, hbk⟩ := Option.ne_none_iff_exists'.mp hb
    simp [RLService.addBookToList, BookRepo.get, hbk, RLRepo.get, hl]
  · intro l hb hl hmem
    obtain ⟨bk, hbk⟩ := Option.ne_none_iff_exists'.mp hb
    simp [RLService.addBookToList, BookRepo.get, hbk, RLRepo.get, hl,
      ReadingList.addBook, hmem]
  · intro l hb hl hmem hlid
    obtain ⟨bk, hbk⟩ := Option.ne_none_iff_exists'.mp hb
    have hc : l.bookIDs.contains bookID = false := by simp [hmem]
    have hupd :
        RLService.addBookToList books lists listID bookID now
          = (replaceKey listID
              { l with bookIDs := l.bookIDs ++ [bookID], updatedAt := now } lists, none) := by
      simp only [RLService.addBookToList, BookRepo.get, hbk, RLRepo.get, hl,
        ReadingList.addBook, hc, Bool.false_eq_true, if_false, RLRepo.update]
      simp [hlid, hl]
    rw [hupd]
    refine ⟨rfl, ?_⟩
    exact lookupKey_replaceKey_self _ (by rw [hl]; exact fun h => Option.noConfusion h)
  · intro hl
    simp [RLService.removeBookFromList, RLRepo.get, hl]
  · intro l hl hmem
    have hn : removeFirst l.bookIDs bookID = none := (removeFirst_eq_none_iff _ _).mpr hmem
    simp [RLService.removeBookFromList, RLRepo.get, hl, ReadingList.removeBook, hn]
  · intro l hl hmem hlid
    have hne : removeFirst l.bookIDs bookID ≠ none := by
      rw [Ne, removeFirst_eq_none_iff]
      simpa using hmem
    obtain ⟨ids, hids⟩ := Option.ne_none_iff_exists'.mp hne
    have hupd :
        RLService.removeBookFromList lists listID bookID now
          = (replaceKey listID
              { l with bookIDs := ids, updatedAt := now } lists, none) := by
      simp only [RLService.removeBookFromList, RLRepo.get, hl,
        ReadingList.removeBook, hids, RLRepo.update]
      simp [hlid, hl]
    rw [hupd]
    refine ⟨rfl, ids, hids, ?_⟩
    exact lookupKey_replaceKey_self _ (by rw [hl]; exact fun h => Option.noConfusion h)

/-- Witness for claim C2 at a one-book, one-list state. -/
theorem claim_C2_witness :
    (RLService.addBookToList [("B1", ⟨"B1", "T", "i1", "a1", 0, 1, "", 1, 1⟩)]
        [("L1", ⟨"L1", "N", "", ["B0"], 1, 1⟩)] "L1" "BX" 5
      = ([("L1", ⟨"L1", "N", "", ["B0"], 1, 1⟩)], some .bookNotFound))
    ∧ (RLService.addBookToList [("B1", ⟨"B1", "T", "i1", "a1", 0, 1, "", 1, 1⟩)]
        [("L1", ⟨"L1", "N", "", ["B0"], 1, 1⟩)] "LX" "B1" 5
      = ([("L1", ⟨"L1", "N", "", ["B0"], 1, 1⟩)], some .readingListNotFound))
    ∧ (RLService.addBookToList [("B1", ⟨"B1", "T", "i1", "a1", 0, 1, "", 1, 1⟩)]
        [("L1", ⟨"L1", "N", "", ["B1"], 1, 1⟩)] "L1" "B1" 5
      = ([("L1", ⟨"L1", "N", "", ["B1"], 1, 1⟩)], some .bookAlreadyInList))
    ∧ ((RLService.addBookToList [("B1", ⟨"B1", "T", "i1", "a1", 0, 1, "", 1, 1⟩)]
          [("L1", ⟨"L1", "N", "", ["B0"], 1, 1⟩)] "L1" "B1" 5).2 = none
        ∧ lookupKey "L1" (RLService.addBookToList
            [("B1", ⟨"B1", "T", "i1", "a1", 0, 1, "", 1, 1⟩)]
            [("L1", ⟨"L1", "N", "", ["B0"], 1, 1⟩)] "L1" "B1" 5).1
          = some ⟨"L1", "N", "", ["B0", "B1"], 1, 5⟩)
    ∧ (RLService.removeBookFromList [("L1", ⟨"L1", "N", "", ["B0"], 1, 1⟩)] "LX" "B0" 5
      = ([("L1", ⟨"L1", "N", "", ["B0"], 1, 1⟩)], some .readingListNotFound))
    ∧ (RLService.removeBookFromList [("L1", ⟨"L1", "N", "", ["B0"], 1, 1⟩)] "L1" "BX" 5
      = ([("L1", ⟨"L1", "N", "", ["B0"], 1, 1⟩)], some .bookNotInList))
    ∧ ((RLService.removeBookFromList [("L1", ⟨"L1", "N", "", ["B0"], 1, 1⟩)] "L1" "B0" 5).2
        = none
        ∧ lookupKey "L1" (RLService.removeBookFromList
            [("L1", ⟨"L1", "N", "", ["B0"], 1, 1⟩)] "L1" "B0" 5).1
          = some ⟨"L1", "N", "", [], 1, 5⟩) := by
  refine ⟨?_, ?_, ?_, ?_, ?_, ?_, ?_⟩
  · exact (claim_C2_list_membership_service _ _ "L1" "BX" 5).1 (by decide)
  · exact (claim_C2_list_membership_service _ _ "LX" "B1" 5).2.1 (by decide) (by decide)
  · exact (claim_C2_list_membership_service _ _ "L1" "B1" 5).2.2.1
      ⟨"L1", "N", "", ["B1"], 1, 1⟩ (by decide) (by decide) (by decide)
  · exact (claim_C2_list_membership_service _ _ "L1" "B1" 5).2.2.2.1
      ⟨"L1", "N", "", ["B0"], 1, 1⟩ (by decide) (by decide) (by decide) (by decide)
  · exact (claim_C2_list_membership_service ([] : BookRepo)
      [("L1", ⟨"L1", "N", "", ["B0"], 1, 1⟩)] "LX" "B0" 5).2.2.2.2.1 (by decide)
  · exact (claim_C2_list_membership_service ([] : BookRepo)
      [("L1", ⟨"L1", "N", "", ["B0"], 1, 1⟩)] "L1" "BX" 5).2.2.2.2.2.1
      ⟨"L1", "N", "", ["B0"], 1, 1⟩ (by decide) (by decide)
  · obtain ⟨h1, ids, hids, h2⟩ := (claim_C2_list_membership_service ([] : BookRepo)
      [("L1", ⟨"L1", "N", "", ["B0"], 1, 1⟩)] "L1" "B0" 5).2.2.2.2.2.2
      ⟨"L1", "N", "", ["B0"], 1, 1⟩ (by decide) (by decide) (by decide)
    have hids2 : (some ([] : List String)) = some ids := by
      rw [← hids]
      decide
    have hids3 : ids = [] := by
      injection hids2 with h
      exact h.symm
    subst hids3
    exact ⟨h1, h2⟩

/-! ### Timestamp behaviour of the book repository -/

theorem bookRepo_create_ok {r : BookRepo} {b : Book} (t : Nat)
    (h : lookupKey b.id r = none) :
    BookRepo.create r b t
      = (r ++ [(b.id, { b with createdAt := t, updatedAt := t })], none) := by
  simp [BookRepo.create, h]

theorem bookRepo_update_ok {r : BookRepo} {b : Book} {ex : Book} (t : Nat)
    (h : lookupKey b.id r = some ex) :
    BookRepo.update r b t
      = (replaceKey b.id { b with createdAt := ex.createdAt, updatedAt := t } r, none) := by
  simp [BookRepo.update, h]

theorem applyOp_createdAt {r : BookRepo} {id : String} {bk bk' : Book}
    (op : BookRepoOp) (t' : Nat)
    (h : lookupKey id r = some bk)
    (h' : lookupKey id (BookRepo.applyOp r op t') = some bk') :
    bk'.createdAt = bk.createdAt := by
  cases op with
  | create b2 =>
      by_cases hex : lookupKey b2.id r = none
      · rw [show BookRepo.applyOp r (.create b2) t' = (BookRepo.create r b2 t').1 from rfl,
          bookRepo_create_ok t' hex] at h'
        rw [lookupKey_append_of_some _ h] at h'
        injection h' with h'
        rw [← h']
      · have hex' : (lookupKey b2.id r).isSome := Option.ne_none_iff_isSome.mp hex
        have : BookRepo.applyOp r (.create b2) t' = r := by
          simp [BookRepo.applyOp, BookRepo.create, hex']
        rw [this, h] at h'
        injection h' with h'
        rw [← h']
  | update b2 =>
      match hex : lookupKey b2.id r with
      | none =>
          have : BookRepo.applyOp r (.update b2) t' = r := by
            simp [BookRepo.applyOp, BookRepo.update, hex]
          rw [this, h] at h'
          injection h' with h'
          rw [← h']
      | some ex =>
          rw [show BookRepo.applyOp r (.update b2) t' = (BookRepo.update r b2 t').1 from rfl,
            bookRepo_update_ok t' hex] at h'
          by_cases hid : id = b2.id
          · subst hid
            rw [hex] at h
            injection h with h
            subst h
            rw [lookupKey_replaceKey_self _ (by rw [hex]; exact fun hh => Option.noConfusion hh)] at h'
            injection h' with h'
            rw [← h']
          · rw [lookupKey_replaceKey_ne _ hid, h] at h'
            injection h' with h'
            rw [← h']
  | delete i =>
      by_cases hex : (lookupKey i r).isSome
      · have : BookRepo.applyOp r (.delete i) t' = removeKey i r := by
          simp [BookRepo.applyOp, BookRepo.delete, hex]
        rw [this] at h'
        by_cases hid : id = i
        · subst hid
          rw [lookupKey_removeKey_self] at h'
          exact Option.noConfusion h'
        · rw [lookupKey_removeKey_ne _ hid, h] at h'
          injection h' with h'
          rw [← h']
      · have : BookRepo.applyOp r (.delete i) t' = r := by
          simp [BookRepo.applyOp, BookRepo.delete, hex]
        rw [this, h] at h'
        injection h' with h'
        rw [← h']

theorem applyOp_TsInv {r : BookRepo} {t t' : Nat} (op : BookRepoOp)
    (h : TsInv r t) (hle : t ≤ t') :
    TsInv (BookRepo.applyOp r op t') t' := by
  have hbase : ∀ p ∈ r, p.2.createdAt ≤ p.2.updatedAt ∧ p.2.updatedAt ≤ t' :=
    fun p hp => ⟨(h p hp).1, Nat.le_trans (h p hp).2 hle⟩
  cases op with
  | create b2 =>
      by_cases hex : lookupKey b2.id r = none
      · rw [show BookRepo.applyOp r (.create b2) t' = (BookRepo.create r b2 t').1 from rfl,
          bookRepo_create_ok t' hex]
        intro p hp
        rcases List.mem_append.mp hp with hp | hp
        · exact hbase p hp
        · simp at hp
          simp [hp]
      · have hex' : (lookupKey b2.id r).isSome := Option.ne_none_iff_isSome.mp hex
        have heq : BookRepo.applyOp r (.create b2) t' = r := by
          simp [BookRepo.applyOp, BookRepo.create, hex']
        rw [heq]
        exact hbase
  | update b2 =>
      match hex : lookupKey b2.id r with
      | none =>
          have heq : BookRepo.applyOp r (.update b2) t' = r := by
            simp [BookRepo.applyOp, BookRepo.update, hex]
          rw [heq]
          exact hbase
      | some ex =>
          rw [show BookRepo.applyOp r (.update b2) t' = (BookRepo.update r b2 t').1 from rfl,
            bookRepo_update_ok t' hex]
          intro p hp
          rcases mem_replaceKey hp with hp | ⟨hp, _⟩
          · have hexmem : (b2.id, ex) ∈ r := lookupKey_mem hex
            have hext := h _ hexmem
            simp only [hp]
            constructor
            · exact Nat.le_trans (Nat.le_trans hext.1 hext.2) hle
            · exact Nat.le_refl t'
          · exact hbase p hp
  | delete i =>
      by_cases hex : (lookupKey i r).isSome
      · have heq : BookRepo.applyOp r (.delete i) t' = removeKey i r := by
          simp [BookRepo.applyOp, BookRepo.delete, hex]
        rw [heq]
        intro p hp
        exact hbase p (mem_removeKey hp).1
      · have heq : BookRepo.applyOp r (.delete i) t' = r := by
          simp [BookRepo.applyOp, BookRepo.delete, hex]
        rw [heq]
        exact hbase

theorem applyOp_updatedAt_mono {r : BookRepo} {id : String} {bk bk' : Book}
    {t t' : Nat} (op : BookRepoOp)
    (h : TsInv r t) (hle : t ≤ t')
    (hl : lookupKey id r = some bk)
    (hl' : lookupKey id (BookRepo.applyOp r op t') = some bk') :
    bk.updatedAt ≤ bk'.updatedAt := by
  cases op with
  | create b2 =>
      by_cases hex : lookupKey b2.id r = none
      · rw [show BookRepo.applyOp r (.create b2) t' = (BookRepo.create r b2 t').1 from rfl,
          bookRepo_create_ok t' hex, lookupKey_append_of_some _ hl] at hl'
        injection hl' with hl'
        rw [hl']
      · have hex' : (lookupKey b2.id r).isSome := Option.ne_none_iff_isSome.mp hex
        have heq : BookRepo.applyOp r (.create b2) t' = r := by
          simp [BookRepo.applyOp, BookRepo.create, hex']
        rw [heq, hl] at hl'
        injection hl' with hl'
        rw [hl']
  | update b2 =>
      match hex : lookupKey b2.id r with
      | none =>
          have heq : BookRepo.applyOp r (.update b2) t' = r := by
            simp [BookRepo.applyOp, BookRepo.update, hex]
          rw [heq, hl] at hl'
          injection hl' with hl'
          rw [hl']
      | some ex =>
          rw [show BookRepo.applyOp r (.update b2) t' = (BookRepo.update r b2 t').1 from rfl,
            bookRepo_update_ok t' hex] at hl'
          by_cases hid : id = b2.id
          · subst hid
            rw [lookupKey_replaceKey_self _ (by rw [hex]; exact fun hh => Option.noConfusion hh)] at hl'
            injection hl' with hl'
            rw [← hl']
            exact Nat.le_trans (h _ (lookupKey_mem hl)).2 hle
          · rw [lookupKey_replaceKey_ne _ hid, hl] at hl'
            injection hl' with hl'
            rw [hl']
  | delete i =>
      by_cases hex : (lookupKey i r).isSome
      · have heq : BookRepo.applyOp r (.delete i) t' = removeKey i r := by
          simp [BookRepo.applyOp, BookRepo.delete, hex]
        rw [heq] at hl'
        by_cases hid : id = i
        · subst hid
          rw [lookupKey_removeKey_self] at hl'
          exact Option.noConfusion hl'
        · rw [lookupKey_removeKey_ne _ hid, hl] at hl'
          injection hl' with hl'
          rw [hl']
      · have heq : BookRepo.applyOp r (.delete i) t' = r := by
          simp [BookRepo.applyOp, BookRepo.delete, hex]
        rw [heq, hl] at hl'
        injection hl' with hl'
        rw [hl']

theorem run_TsInv {t : Nat} {tr : List (BookRepoOp × Nat)} {r : BookRepo}
    (hc : ChronoFrom t tr) (h : TsInv r t) :
    ∀ p ∈ BookRepo.run r tr, p.2.createdAt ≤ p.2.updatedAt := by
  induction tr generalizing r t with
  | nil =>
      intro p hp
      exact (h p hp).1
  | cons e tr ih =>
      obtain ⟨hle, hc'⟩ := hc
      exact ih hc' (applyOp_TsInv e.1 h hle)

/-! ### Timestamp behaviour of the author repository -/

theorem authorRepo_create_ok {r : AuthorRepo} {a : Author} (t : Nat)
    (h : lookupKey a.id r = none) :
    AuthorRepo.create r a t
      = (r ++ [(a.id, { a with createdAt := t, updatedAt := t })], none) := by
  simp [AuthorRepo.create, h]

theorem authorRepo_update_ok {r : AuthorRepo} {a : Author} {ex : Author} (t : Nat)
    (h : lookupKey a.id r = some ex) :
    AuthorRepo.update r a t
      = (replaceKey a.id { a with createdAt := ex.createdAt, updatedAt := t } r, none) := by
  simp [AuthorRepo.update, h]

theorem applyOpAuthor_createdAt {r : AuthorRepo} {id : String} {ak ak' : Author}
    (op : AuthorRepoOp) (t' : Nat)
    (h : lookupKey id r = some ak)
    (h' : lookupKey id (AuthorRepo.applyOp r op t') = some ak') :
    ak'.createdAt = ak.createdAt := by
  cases op with
  | create a2 =>
      by_cases hex : lookupKey a2.id r = none
      · rw [show AuthorRepo.applyOp r (.create a2) t' = (AuthorRepo.create r a2 t').1 from rfl,
          authorRepo_create_ok t' hex] at h'
        rw [lookupKey_append_of_some _ h] at h'
        injection h' with h'
        rw [← h']
      · have hex' : (lookupKey a2.id r).isSome := Option.ne_none_iff_isSome.mp hex
        have : AuthorRepo.applyOp r (.create a2) t' = r := by
          simp [AuthorRepo.applyOp, AuthorRepo.create, hex']
        rw [this, h] at h'
        injection h' with h'
        rw [← h']
  | update a2 =>
      match hex : lookupKey a2.id r with
      | none =>
          have : AuthorRepo.applyOp r (.update a2) t' = r := by
            simp [AuthorRepo.applyOp, AuthorRepo.update, hex]
          rw [this, h] at h'
          injection h' with h'
          rw [← h']
      | some ex =>
          rw [show AuthorRepo.applyOp r (.update a2) t' = (AuthorRepo.update r a2 t').1 from rfl,
            authorRepo_update_ok t' hex] at h'
          by_cases hid : id = a2.id
          · subst hid
            rw [hex] at h
            injection h with h
            subst h
            rw [lookupKey_replaceKey_self _ (by rw [hex]; exact fun hh => Option.noConfusion hh)] at h'
            injection h' with h'
            rw [← h']
          · rw [lookupKey_replaceKey_ne _ hid, h] at h'
            injection h' with h'
            rw [← h']
  | delete i =>
      by_cases hex : (lookupKey i r).isSome
      · have : AuthorRepo.applyOp r (.delete i) t' = removeKey i r := by
          simp [AuthorRepo.applyOp, AuthorRepo.delete, hex]
        rw [this] at h'
        by_cases hid : id = i
        · subst hid
          rw [lookupKey_removeKey_self] at h'
          exact Option.noConfusion h'
        · rw [lookupKey_removeKey_ne _ hid, h] at h'
          injection h' with h'
          rw [← h']
      · have : AuthorRepo.applyOp r (.delete i) t' = r := by
          simp [AuthorRepo.applyOp, AuthorRepo.delete, hex]
        rw [this, h] at h'
        injection h' with h'
        rw [← h']

theorem applyOpAuthor_TsInv {r : AuthorRepo} {t t' : Nat} (op : AuthorRepoOp)
    (h : TsInvAuthor r t) (hle : t ≤ t') :
    TsInvAuthor (AuthorRepo.applyOp r op t') t' := by
  have hbase : ∀ p ∈ r, p.2.createdAt ≤ p.2.updatedAt ∧ p.2.updatedAt ≤ t' :=
    fun p hp => ⟨(h p hp).1, Nat.le_trans (h p hp).2 hle⟩
  cases op with
  | create a2 =>
      by_cases hex : lookupKey a2.id r = none
      · rw [show AuthorRepo.applyOp r (.create a2) t' = (AuthorRepo.create r a2 t').1 from rfl,
          authorRepo_create_ok t' hex]
        intro p hp
        rcases List.mem_append.mp hp with hp | hp
        · exact hbase p hp
        · simp at hp
          simp [hp]
      · have hex' : (lookupKey a2.id r).isSome := Option.ne_none_iff_isSome.mp hex
        have heq : AuthorRepo.applyOp r (.create a2) t' = r := by
          simp [AuthorRepo.applyOp, AuthorRepo.create, hex']
        rw [heq]
        exact hbase
  | update a2 =>
      match hex : lookupKey a2.id r with
      | none =>
          have heq : AuthorRepo.applyOp r (.update a2) t' = r := by
            simp [AuthorRepo.applyOp, AuthorRepo.update, hex]
          rw [heq]
          exact hbase
      | some ex =>
          rw [show AuthorRepo.applyOp r (.update a2) t' = (AuthorRepo.update r a2 t').1 from rfl,
            authorRepo_update_ok t' hex]
          intro p hp
          rcases mem_replaceKey hp with hp | ⟨hp, _⟩
          · have hexmem : (a2.id, ex) ∈ r := lookupKey_mem hex
            have hext := h _ hexmem
            simp only [hp]
            constructor
            · exact Nat.le_trans (Nat.le_trans hext.1 hext.2) hle
            · exact Nat.le_refl t'
          · exact hbase p hp
  | delete i =>
      by_cases hex : (lookupKey i r).isSome
      · have heq : AuthorRepo.applyOp r (.delete i) t' = removeKey i r := by
          simp [AuthorRepo.applyOp, AuthorRepo.delete, hex]
        rw [heq]
        intro p hp
        exact hbase p (mem_removeKey hp).1
      · have heq : AuthorRepo.applyOp r (.delete i) t' = r := by
          simp [AuthorRepo.applyOp, AuthorRepo.delete, hex]
        rw [heq]
        exact hbase

theorem applyOpAuthor_updatedAt_mono {r : AuthorRepo} {id : String} {ak ak' : Author}
    {t t' : Nat} (op : AuthorRepoOp)
    (h : TsInvAuthor r t) (hle : t ≤ t')
    (hl : lookupKey id r = some ak)
    (hl' : lookupKey id (AuthorRepo.applyOp r op t') = some ak') :
    ak.updatedAt ≤ ak'.updatedAt := by
  cases op with
  | create a2 =>
      by_cases hex : lookupKey a2.id r = none
      · rw [show AuthorRepo.applyOp r (.create a2) t' = (AuthorRepo.create r a2 t').1 from rfl,
          authorRepo_create_ok t' hex, lookupKey_append_of_some _ hl] at hl'
        injection hl' with hl'
        rw [hl']
      · have hex' : (lookupKey a2.id r).isSome := Option.ne_none_iff_isSome.mp hex
        have heq : AuthorRepo.applyOp r (.create a2) t' = r := by
          simp [AuthorRepo.applyOp, AuthorRepo.create, hex']
        rw [heq, hl] at hl'
        injection hl' with hl'
        rw [hl']
  | update a2 =>
      match hex : lookupKey a2.id r with
      | none =>
          have heq : AuthorRepo.applyOp r (.update a2) t' = r := by
            simp [AuthorRepo.applyOp, AuthorRepo.update, hex]
          rw [heq, hl] at hl'
          injection hl' with hl'
          rw [hl']
      | some ex =>
          rw [show AuthorRepo.applyOp r (.update a2) t' = (AuthorRepo.update r a2 t').1 from rfl,
            authorRepo_update_ok t' hex] at hl'
          by_cases hid : id = a2.id
          · subst hid
            rw [lookupKey_replaceKey_self _ (by rw [hex]; exact fun hh => Option.noConfusion hh)] at hl'
            injection hl' with hl'
            rw [← hl']
            exact Nat.le_trans (h _ (lookupKey_mem hl)).2 hle
          · rw [lookupKey_replaceKey_ne _ hid, hl] at hl'
            injection hl' with hl'
            rw [hl']
  | delete i =>
      by_cases hex : (lookupKey i r).isSome
      · have heq : AuthorRepo.applyOp r (.delete i) t' = removeKey i r := by
          simp [AuthorRepo.applyOp, AuthorRepo.delete, hex]
        rw [heq] at hl'
        by_cases hid : id = i
        · subst hid
          rw [lookupKey_removeKey_self] at hl'
          exact Option.noConfusion hl'
        · rw [lookupKey_removeKey_ne _ hid, hl] at hl'
          injection hl' with hl'
          rw [hl']
      · have heq : AuthorRepo.applyOp r (.delete i) t' = r := by
          simp [AuthorRepo.applyOp, AuthorRepo.delete, hex]
        rw [heq, hl] at hl'
        injection hl' with hl'
        rw [hl']

theorem runAuthor_TsInv {t : Nat} {tr : List (AuthorRepoOp × Nat)} {r : AuthorRepo}
    (hc : ChronoFrom t tr) (h : TsInvAuthor r t) :
    ∀ p ∈ AuthorRepo.run r tr, p.2.createdAt ≤ p.2.updatedAt := by
  induction tr generalizing r t with
  | nil =>
      intro p hp
      exact (h p hp).1
  | cons e tr ih =>
      obtain ⟨hle, hc'⟩ := hc
      exact ih hc' (applyOpAuthor_TsInv e.1 h hle)

/-! ### Timestamp behaviour of the reading-list repository -/

theorem rlRepo_create_ok {r : RLRepo} {l : ReadingList} (t : Nat)
    (h : lookupKey l.id r = none) :
    RLRepo.create r l t
      = (r ++ [(l.id, { l with createdAt := t, updatedAt := t })], none) := by
  simp [RLRepo.create, h]

theorem rlRepo_update_ok {r : RLRepo} {l : ReadingList} {ex : ReadingList} (t : Nat)
    (h : lookupKey l.id r = some ex) :
    RLRepo.update r l t
      = (replaceKey l.id { l with createdAt := ex.createdAt, updatedAt := t } r, none) := by
  simp [RLRepo.update, h]

theorem applyOpRL_createdAt {r : RLRepo} {id : String} {lk lk' : ReadingList}
    (op : RLRepoOp) (t' : Nat)
    (h : lookupKey id r = some lk)
    (h' : lookupKey id (RLRepo.applyOp r op t') = some lk') :
    lk'.createdAt = lk.createdAt := by
  cases op with
  | create l2 =>
      by_cases hex : lookupKey l2.id r = none
      · rw [show RLRepo.applyOp r (.create l2) t' = (RLRepo.create r l2 t').1 from rfl,
          rlRepo_create_ok t' hex] at h'
        rw [lookupKey_append_of_some _ h] at h'
        injection h' with h'
        rw [← h']
      · have hex' : (lookupKey l2.id r).isSome := Option.ne_none_iff_isSome.mp hex
        have : RLRepo.applyOp r (.create l2) t' = r := by
          simp [RLRepo.applyOp, RLRepo.create, hex']
        rw [this, h] at h'
        injection h' with h'
        rw [← h']
  | update l2 =>
      match hex : lookupKey l2.id r with
      | none =>
          have : RLRepo.applyOp r (.update l2) t' = r := by
            simp [RLRepo.applyOp, RLRepo.update, hex]
          rw [this, h] at h'
          injection h' with h'
          rw [← h']
      | some ex =>
          rw [show RLRepo.applyOp r (.update l2) t' = (RLRepo.update r l2 t').1 from rfl,
            rlRepo_update_ok t' hex] at h'
          by_cases hid : id = l2.id
          · subst hid
            rw [hex] at h
            injection h with h
            subst h
            rw [lookupKey_replaceKey_self _ (by rw [hex]; exact fun hh => Option.noConfusion hh)] at h'
            injection h' with h'
            rw [← h']
          · rw [lookupKey_replaceKey_ne _ hid, h] at h'
            injection h' with h'
            rw [← h']
  | delete i =>
      by_cases hex : (lookupKey i r).isSome
      · have : RLRepo.applyOp r (.delete i) t' = removeKey i r := by
          simp [RLRepo.applyOp, RLRepo.delete, hex]
        rw [this] at h'
        by_cases hid : id = i
        · subst hid
          rw [lookupKey_removeKey_self] at h'
          exact Option.noConfusion h'
        · rw [lookupKey_removeKey_ne _ hid, h] at h'
          injection h' with h'
          rw [← h']
      · have : RLRepo.applyOp r (.delete i) t' = r := by
          simp [RLRepo.applyOp, RLRepo.delete, hex]
        rw [this, h] at h'
        injection h' with h'
        rw [← h']

theorem applyOpRL_TsInv {r : RLRepo} {t t' : Nat} (op : RLRepoOp)
    (h : TsInvRL r t) (hle : t ≤ t') :
    TsInvRL (RLRepo.applyOp r op t') t' := by
  have hbase : ∀ p ∈ r, p.2.createdAt ≤ p.2.updatedAt ∧ p.2.updatedAt ≤ t' :=
    fun p hp => ⟨(h p hp).1, Nat.le_trans (h p hp).2 hle⟩
  cases op with
  | create l2 =>
      by_cases hex : lookupKey l2.id r = none
      · rw [show RLRepo.applyOp r (.create l2) t' = (RLRepo.create r l2 t').1 from rfl,
          rlRepo_create_ok t' hex]
        intro p hp
        rcases List.mem_append.mp hp with hp | hp
        · exact hbase p hp
        · simp at hp
          simp [hp]
      · have hex' : (lookupKey l2.id r).isSome := Option.ne_none_iff_isSome.mp hex
        have heq : RLRepo.applyOp r (.create l2) t' = r := by
          simp [RLRepo.applyOp, RLRepo.create, hex']
        rw [heq]
        exact hbase
  | update l2 =>
      match hex : lookupKey l2.id r with
      | none =>
          have heq : RLRepo.applyOp r (.update l2) t' = r := by
            simp [RLRepo.applyOp, RLRepo.update, hex]
          rw [heq]
          exact hbase
      | some ex =>
          rw [show RLRepo.applyOp r (.update l2) t' = (RLRepo.update r l2 t').1 from rfl,
            rlRepo_update_ok t' hex]
          intro p hp
          rcases mem_replaceKey hp with hp | ⟨hp, _⟩
          · have hexmem : (l2.id, ex) ∈ r := lookupKey_mem hex
            have hext := h _ hexmem
            simp only [hp]
            constructor
            · exact Nat.le_trans (Nat.le_trans hext.1 hext.2) hle
            · exact Nat.le_refl t'
          · exact hbase p hp
  | delete i =>
      by_cases hex : (lookupKey i r).isSome
      · have heq : RLRepo.applyOp r (.delete i) t' = removeKey i r := by
          simp [RLRepo.applyOp, RLRepo.delete, hex]
        rw [heq]
        intro p hp
        exact hbase p (mem_removeKey hp).1
      · have heq : RLRepo.applyOp r (.delete i) t' = r := by
          simp [RLRepo.applyOp, RLRepo.delete, hex]
        rw [heq]
        exact hbase

theorem applyOpRL_updatedAt_mono {r : RLRepo} {id : String} {lk lk' : ReadingList}
    {t t' : Nat} (op : RLRepoOp)
    (h : TsInvRL r t) (hle : t ≤ t')
    (hl : lookupKey id r = some lk)
    (hl' : lookupKey id (RLRepo.applyOp r op t') = some lk') :
    lk.updatedAt ≤ lk'.updatedAt := by
  cases op with
  | create l2 =>
      by_cases hex : lookupKey l2.id r = none
      · rw [show RLRepo.applyOp r (.create l2) t' = (RLRepo.create r l2 t').1 from rfl,
          rlRepo_create_ok t' hex, lookupKey_append_of_some _ hl] at hl'
        injection hl' with hl'
        rw [hl']
      · have hex' : (lookupKey l2.id r).isSome := Option.ne_none_iff_isSome.mp hex
        have heq : RLRepo.applyOp r (.create l2) t' = r := by
          simp [RLRepo.applyOp, RLRepo.create, hex']
        rw [heq, hl] at hl'
        injection hl' with hl'
        rw [hl']
  | update l2 =>
      match hex : lookupKey l2.id r with
      | none =>
          have heq : RLRepo.applyOp r (.update l2) t' = r := by
            simp [RLRepo.applyOp, RLRepo.update, hex]
          rw [heq, hl] at hl'
          injection hl' with hl'
          rw [hl']
      | some ex =>
          rw [show RLRepo.applyOp r (.update l2) t' = (RLRepo.update r l2 t').1 from rfl,
            rlRepo_update_ok t' hex] at hl'
          by_cases hid : id = l2.id
          · subst hid
            rw [lookupKey_replaceKey_self _ (by rw [hex]; exact fun hh => Option.noConfusion hh)] at hl'
            injection hl' with hl'
            rw [← hl']
            exact Nat.le_trans (h _ (lookupKey_mem hl)).2 hle
          · rw [lookupKey_replaceKey_ne _ hid, hl] at hl'
            injection hl' with hl'
            rw [hl']
  | delete i =>
      by_cases hex : (lookupKey i r).isSome
      · have heq : RLRepo.applyOp r (.delete i) t' = removeKey i r := by
          simp [RLRepo.applyOp, RLRepo.delete, hex]
        rw [heq] at hl'
        by_cases hid : id = i
        · subst hid
          rw [lookupKey_removeKey_self] at hl'
          exact Option.noConfusion hl'
        · rw [lookupKey_removeKey_ne _ hid, hl] at hl'
          injection hl' with hl'
          rw [hl']
      · have heq : RLRepo.applyOp r (.delete i) t' = r := by
          simp [RLRepo.applyOp, RLRepo.delete, hex]
        rw [heq, hl] at hl'
        injection hl' with hl'
        rw [hl']

theorem runRL_TsInv {t : Nat} {tr : List (RLRepoOp × Nat)} {r : RLRepo}
    (hc : ChronoFrom t tr) (h : TsInvRL r t) :
    ∀ p ∈ RLRepo.run r tr, p.2.createdAt ≤ p.2.updatedAt := by
  induction tr generalizing r t with
  | nil =>
      intro p hp
      exact (h p hp).1
  | cons e tr ih =>
      obtain ⟨hle, hc'⟩ := hc
      exact ih hc' (applyOpRL_TsInv e.1 h hle)

/-- Claim C3: in each of the three repositories, after a successful `Create`
the stored entity's `created_at` equals its `updated_at` and both equal the
creation instant; a successful `Update` keeps the stored `created_at` and
stamps `updated_at` with the current instant; no operation ever changes a
stored entity's `created_at`; under a non-decreasing clock the timestamp
invariant `created_at ≤ updated_at ≤ clock` is preserved by every
operation, `updated_at` never decreases for a stored id, and along any
chronological trace every stored entity satisfies
`created_at ≤ updated_at`. -/
theorem claim_C3_timestamps (r : BookRepo) (b : Book) (id : String)
    (op : BookRepoOp) (t t' : Nat) (tr : List (BookRepoOp × Nat))
    (ra : AuthorRepo) (a : Author) (opa : AuthorRepoOp)
    (tra : List (AuthorRepoOp × Nat))
    (rl : RLRepo) (l : ReadingList) (opl : RLRepoOp)
    (trl : List (RLRepoOp × Nat)) :
    (lookupKey b.id r = none →
        (BookRepo.create r b t).2 = none
        ∧ lookupKey b.id (BookRepo.create r b t).1
            = some { b with createdAt := t, updatedAt := t })
    ∧ (∀ ex, lookupKey b.id r = some ex →
        (BookRepo.update r b t').2 = none
        ∧ lookupKey b.id (BookRepo.update r b t').1
            = some { b with createdAt := ex.createdAt, updatedAt := t' })
    ∧ (∀ bk bk', lookupKey id r = some bk →
        lookupKey id (BookRepo.applyOp r op t') = some bk' →
        bk'.createdAt = bk.createdAt)
    ∧ (TsInv r t → t ≤ t' → TsInv (BookRepo.applyOp r op t') t')
    ∧ (∀ bk bk', TsInv r t → t ≤ t' → lookupKey id r = some bk →
        lookupKey id (BookRepo.applyOp r op t') = some bk' →
        bk.updatedAt ≤ bk'.updatedAt)
    ∧ (ChronoFrom t tr → TsInv r t →
        ∀ p ∈ BookRepo.run r tr, p.2.createdAt ≤ p.2.updatedAt)
    ∧ (lookupKey a.id ra = none →
        (AuthorRepo.create ra a t).2 = none
        ∧ lookupKey a.id (AuthorRepo.create ra a t).1
            = some { a with createdAt := t, updatedAt := t })
    ∧ (∀ ex, lookupKey a.id ra = some ex →
        (AuthorRepo.update ra a t').2 = none
        ∧ lookupKey a.id (AuthorRepo.update ra a t').1
            = some { a with createdAt := ex.createdAt, updatedAt := t' })
    ∧ (∀ ak ak', lookupKey id ra = some ak →
        lookupKey id (AuthorRepo.applyOp ra opa t') = some ak' →
        ak'.createdAt = ak.createdAt)
    ∧ (TsInvAuthor ra t → t ≤ t' → TsInvAuthor (AuthorRepo.applyOp ra opa t') t')
    ∧ (∀ ak ak', TsInvAuthor ra t → t ≤ t' → lookupKey id ra = some ak →
        lookupKey id (AuthorRepo.applyOp ra opa t') = some ak' →
        ak.updatedAt ≤ ak'.updatedAt)
    ∧ (ChronoFrom t tra → TsInvAuthor ra t →
        ∀ p ∈ AuthorRepo.run ra tra, p.2.createdAt ≤ p.2.updatedAt)
    ∧ (lookupKey l.id rl = none →
        (RLRepo.create rl l t).2 = none
        ∧ lookupKey l.id (RLRepo.create rl l t).1
            = some { l with createdAt := t, updatedAt := t })
    ∧ (∀ ex, lookupKey l.id rl = some ex →
        (RLRepo.update rl l t').2 = none
        ∧ lookupKey l.id (RLRepo.update rl l t').1
            = some { l with createdAt := ex.createdAt, updatedAt := t' })
    ∧ (∀ lk lk', lookupKey id rl = some lk →
        lookupKey id (RLRepo.applyOp rl opl t') = some lk' →
        lk'.createdAt = lk.createdAt)
    ∧ (TsInvRL rl t → t ≤ t' → TsInvRL (RLRepo.applyOp rl opl t') t')
    ∧ (∀ lk lk', TsInvRL rl t → t ≤ t' → lookupKey id rl = some lk →
        lookupKey id (RLRepo.applyOp rl opl t') = some lk' →
        lk.updatedAt ≤ lk'.updatedAt)
    ∧ (ChronoFrom t trl → TsInvRL rl t →
        ∀ p ∈ RLRepo.run rl trl, p.2.createdAt ≤ p.2.updatedAt) := by
  refine ⟨?_, ?_, ?_, ?_, ?_, ?_, ?_, ?_, ?_, ?_, ?_, ?_, ?_, ?_, ?_, ?_, ?_, ?_⟩
  · intro h
    rw [bookRepo_create_ok t h]
    refine ⟨rfl, ?_⟩
    rw [lookupKey_append_of_none _ h]
    simp
  · intro ex h
    rw [bookRepo_update_ok t' h]
    refine ⟨rfl, ?_⟩
    exact lookupKey_replaceKey_self _ (by rw [h]; exact fun hh => Option.noConfusion hh)
  · intro bk bk' h h'
    exact applyOp_createdAt op t' h h'
  · intro h hle
    exact applyOp_TsInv op h hle
  · intro bk bk' h hle hl hl'
    exact applyOp_updatedAt_mono op h hle hl hl'
  · intro hc h
    exact run_TsInv hc h
  · intro h
    rw [authorRepo_create_ok t h]
    refine ⟨rfl, ?_⟩
    rw [lookupKey_append_of_none _ h]
    simp
  · intro ex h
    rw [authorRepo_update_ok t' h]
    refine ⟨rfl, ?_⟩
    exact lookupKey_replaceKey_self _ (by rw [h]; exact fun hh => Option.noConfusion hh)
  · intro ak ak' h h'
    exact applyOpAuthor_createdAt opa t' h h'
  · intro h hle
    exact applyOpAuthor_TsInv opa h hle
  · intro ak ak' h hle hl hl'
    exact applyOpAuthor_updatedAt_mono opa h hle hl hl'
  · intro hc h
    exact runAuthor_TsInv hc h
  · intro h
    rw [rlRepo_create_ok t h]
    refine ⟨rfl, ?_⟩
    rw [lookupKey_append_of_none _ h]
    simp
  · intro ex h
    rw [rlRepo_update_ok t' h]
    refine ⟨rfl, ?_⟩
    exact lookupKey_replaceKey_self _ (by rw [h]; exact fun hh => Option.noConfusion hh)
  · intro lk lk' h h'
    exact applyOpRL_createdAt opl t' h h'
  · intro h hle
    exact applyOpRL_TsInv opl h hle
  · intro lk lk' h hle hl hl'
    exact applyOpRL_updatedAt_mono opl h hle hl hl'
  · intro hc h
    exact runRL_TsInv hc h

/-- Witness for claim C3 on two-step traces in all three repositories. -/
theorem claim_C3_witness :
    ((BookRepo.create [] ⟨"b1", "T", "i1", "a1", 0, 1, "", 0, 0⟩ 3).2 = none
      ∧ lookupKey "b1" (BookRepo.create [] ⟨"b1", "T", "i1", "a1", 0, 1, "", 0, 0⟩ 3).1
          = some ⟨"b1", "T", "i1", "a1", 0, 1, "", 3, 3⟩)
    ∧ ((BookRepo.update [("b1", ⟨"b1", "T", "i1", "a1", 0, 1, "", 3, 3⟩)]
          ⟨"b1", "U", "i1", "a1", 0, 2, "", 0, 0⟩ 7).2 = none
      ∧ lookupKey "b1" (BookRepo.update [("b1", ⟨"b1", "T", "i1", "a1", 0, 1, "", 3, 3⟩)]
          ⟨"b1", "U", "i1", "a1", 0, 2, "", 0, 0⟩ 7).1
          = some ⟨"b1", "U", "i1", "a1", 0, 2, "", 3, 7⟩)
    ∧ (∀ p ∈ BookRepo.run []
        [(BookRepoOp.create ⟨"b1", "T", "i1", "a1", 0, 1, "", 0, 0⟩, 3),
         (BookRepoOp.update ⟨"b1", "U", "i1", "a1", 0, 2, "", 0, 0⟩, 7)],
        p.2.createdAt ≤ p.2.updatedAt)
    ∧ ((AuthorRepo.create [] ⟨"a1", "N", "B", 0, "USA", 0, 0⟩ 3).2 = none
      ∧ lookupKey "a1" (AuthorRepo.create [] ⟨"a1", "N", "B", 0, "USA", 0, 0⟩ 3).1
          = some ⟨"a1", "N", "B", 0, "USA", 3, 3⟩)
    ∧ ((AuthorRepo.update [("a1", ⟨"a1", "N", "B", 0, "USA", 3, 3⟩)]
          ⟨"a1", "M", "B", 0, "UK", 0, 0⟩ 7).2 = none
      ∧ lookupKey "a1" (AuthorRepo.update [("a1", ⟨"a1", "N", "B", 0, "USA", 3, 3⟩)]
          ⟨"a1", "M", "B", 0, "UK", 0, 0⟩ 7).1
          = some ⟨"a1", "M", "B", 0, "UK", 3, 7⟩)
    ∧ (∀ p ∈ AuthorRepo.run []
        [(AuthorRepoOp.create ⟨"a1", "N", "B", 0, "USA", 0, 0⟩, 3),
         (AuthorRepoOp.update ⟨"a1", "M", "B", 0, "UK", 0, 0⟩, 7)],
        p.2.createdAt ≤ p.2.updatedAt)
    ∧ ((RLRepo.create [] ⟨"L1", "N", "", ["B0"], 0, 0⟩ 3).2 = none
      ∧ lookupKey "L1" (RLRepo.create [] ⟨"L1", "N", "", ["B0"], 0, 0⟩ 3).1
          = some ⟨"L1", "N", "", ["B0"], 3, 3⟩)
    ∧ ((RLRepo.update [("L1", ⟨"L1", "N", "", ["B0"], 3, 3⟩)]
          ⟨"L1", "M", "", ["B0", "B1"], 0, 0⟩ 7).2 = none
      ∧ lookupKey "L1" (RLRepo.update [("L1", ⟨"L1", "N", "", ["B0"], 3, 3⟩)]
          ⟨"L1", "M", "", ["B0", "B1"], 0, 0⟩ 7).1
          = some ⟨"L1", "M", "", ["B0", "B1"], 3, 7⟩)
    ∧ (∀ p ∈ RLRepo.run []
        [(RLRepoOp.create ⟨"L1", "N", "", ["B0"], 0, 0⟩, 3),
         (RLRepoOp.update ⟨"L1", "M", "", ["B0", "B1"], 0, 0⟩, 7)],
        p.2.createdAt ≤ p.2.updatedAt) := by
  refine ⟨?_, ?_, ?_, ?_, ?_, ?_, ?_, ?_, ?_⟩
  · exact (claim_C3_timestamps [] ⟨"b1", "T", "i1", "a1", 0, 1, "", 0, 0⟩ "b1"
      (BookRepoOp.delete "x") 3 3 [] [] ⟨"a1", "N", "B", 0, "USA", 0, 0⟩
      (AuthorRepoOp.delete "x") [] [] ⟨"L1", "N", "", [], 0, 0⟩
      (RLRepoOp.delete "x") []).1 (by decide)
  · exact (claim_C3_timestamps [("b1", ⟨"b1", "T", "i1", "a1", 0, 1, "", 3, 3⟩)]
      ⟨"b1", "U", "i1", "a1", 0, 2, "", 0, 0⟩ "b1"
      (BookRepoOp.delete "x") 3 7 [] [] ⟨"a1", "N", "B", 0, "USA", 0, 0⟩
      (AuthorRepoOp.delete "x") [] [] ⟨"L1", "N", "", [], 0, 0⟩
      (RLRepoOp.delete "x") []).2.1 ⟨"b1", "T", "i1", "a1", 0, 1, "", 3, 3⟩ (by decide)
  · exact (claim_C3_timestamps [] ⟨"b1", "T", "i1", "a1", 0, 1, "", 0, 0⟩ "b1"
      (BookRepoOp.delete "x") 0 0
      [(BookRepoOp.create ⟨"b1", "T", "i1", "a1", 0, 1, "", 0, 0⟩, 3),
       (BookRepoOp.update ⟨"b1", "U", "i1", "a1", 0, 2, "", 0, 0⟩, 7)]
      [] ⟨"a1", "N", "B", 0, "USA", 0, 0⟩ (AuthorRepoOp.delete "x") []
      [] ⟨"L1", "N", "", [], 0, 0⟩ (RLRepoOp.delete "x") []).2.2.2.2.2.1
      (by simp [ChronoFrom]) (by simp [TsInv])
  · exact (claim_C3_timestamps [] ⟨"b1", "T", "i1", "a1", 0, 1, "", 0, 0⟩ "a1"
      (BookRepoOp.delete "x") 3 3 [] [] ⟨"a1", "N", "B", 0, "USA", 0, 0⟩
      (AuthorRepoOp.delete "x") [] [] ⟨"L1", "N", "", [], 0, 0⟩
      (RLRepoOp.delete "x") []).2.2.2.2.2.2.1 (by decide)
  · exact (claim_C3_timestamps [] ⟨"b1", "T", "i1", "a1", 0, 1, "", 0, 0⟩ "a1"
      (BookRepoOp.delete "x") 3 7 [] [("a1", ⟨"a1", "N", "B", 0, "USA", 3, 3⟩)]
      ⟨"a1", "M", "B", 0, "UK", 0, 0⟩ (AuthorRepoOp.delete "x") []
      [] ⟨"L1", "N", "", [], 0, 0⟩
      (RLRepoOp.delete "x") []).2.2.2.2.2.2.2.1 ⟨"a1", "N", "B", 0, "USA", 3, 3⟩ (by decide)
  · exact (claim_C3_timestamps [] ⟨"b1", "T", "i1", "a1", 0, 1, "", 0, 0⟩ "a1"
      (BookRepoOp.delete "x") 0 0 [] [] ⟨"a1", "N", "B", 0, "USA", 0, 0⟩
      (AuthorRepoOp.delete "x")
      [(AuthorRepoOp.create ⟨"a1", "N", "B", 0, "USA", 0, 0⟩, 3),
       (AuthorRepoOp.update ⟨"a1", "M", "B", 0, "UK", 0, 0⟩, 7)]
      [] ⟨"L1", "N", "", [], 0, 0⟩ (RLRepoOp.delete "x") []).2.2.2.2.2.2.2.2.2.2.2.1
      (by simp [ChronoFrom]) (by simp [TsInvAuthor])
  · exact (claim_C3_timestamps [] ⟨"b1", "T", "i1", "a1", 0, 1, "", 0, 0⟩ "L1"
      (BookRepoOp.delete "x") 3 3 [] [] ⟨"a1", "N", "B", 0, "USA", 0, 0⟩
      (AuthorRepoOp.delete "x") [] [] ⟨"L1", "N", "", ["B0"], 0, 0⟩
      (RLRepoOp.delete "x") []).2.2.2.2.2.2.2.2.2.2.2.2.1 (by decide)
  · exact (claim_C3_timestamps [] ⟨"b1", "T", "i1", "a1", 0, 1, "", 0, 0⟩ "L1"
      (BookRepoOp.delete "x") 3 7 [] [] ⟨"a1", "N", "B", 0, "USA", 0, 0⟩
      (AuthorRepoOp.delete "x") [] [("L1", ⟨"L1", "N", "", ["B0"], 3, 3⟩)]
      ⟨"L1", "M", "", ["B0", "B1"], 0, 0⟩ (RLRepoOp.delete "x")
      []).2.2.2.2.2.2.2.2.2.2.2.2.2.1 ⟨"L1", "N", "", ["B0"], 3, 3⟩ (by decide)
  · exact (claim_C3_timestamps [] ⟨"b1", "T", "i1", "a1", 0, 1, "", 0, 0⟩ "L1"
      (BookRepoOp.delete "x") 0 0 [] [] ⟨"a1", "N", "B", 0, "USA", 0, 0⟩
      (AuthorRepoOp.delete "x") [] [] ⟨"L1", "N", "", ["B0"], 0, 0⟩
      (RLRepoOp.delete "x")
      [(RLRepoOp.create ⟨"L1", "N", "", ["B0"], 0, 0⟩, 3),
       (RLRepoOp.update ⟨"L1", "M", "", ["B0", "B1"], 0, 0⟩, 7)]).2.2.2.2.2.2.2.2.2.2.2.2.2.2.2.2.2
      (by simp [ChronoFrom]) (by simp [TsInvRL])

theorem createBook_ok_inv {r r2 : BookRepo} {b : Book} {now : Nat}
    (h : BookService.createBook r b now = (r2, none)) :
    b.validate = none ∧ (∀ x ∈ BookRepo.list r, x.isbn ≠ b.isbn)
    ∧ lookupKey b.id r = none
    ∧ r2 = r ++ [(b.id, { b with createdAt := now, updatedAt := now })] := by
  match hv : b.validate with
  | some m =>
      rw [createBook_invalid hv] at h
      simp at h
  | none =>
      by_cases hdup : ∃ x ∈ BookRepo.list r, x.isbn = b.isbn
      · rw [createBook_dup hv hdup] at h
        simp at h
      · push_neg at hdup
        by_cases hid : lookupKey b.id r = none
        · rw [createBook_ok hv hdup hid] at h
          have := (Prod.mk.injEq _ _ _ _).mp h
          exact ⟨rfl, hdup, hid, this.1.symm⟩
        · rw [createBook_id_exists hv hdup hid] at h
          simp at h

/-- Claim C7: a book accepted by `CreateBook` is returned by a subsequent
`GetBook` with all caller-supplied fields equal to the input's and with
non-zero server-set timestamps (the clock being positive, as `time.Now()`
never yields the zero instant). -/
theorem claim_C7_create_get_roundtrip (r r2 : BookRepo) (b : Book) (now : Nat)
    (hnow : 0 < now)
    (h : BookService.createBook r b now = (r2, none)) :
    ∃ b', BookService.getBook r2 b.id = .ok b'
      ∧ b'.id = b.id ∧ b'.title = b.title ∧ b'.isbn = b.isbn
      ∧ b'.authorID = b.authorID ∧ b'.pages = b.pages ∧ b'.genre = b.genre
      ∧ b'.publishedAt = b.publishedAt
      ∧ b'.createdAt ≠ 0 ∧ b'.updatedAt ≠ 0 := by
  obtain ⟨hv, hno, hid, rfl⟩ := createBook_ok_inv h
  refine ⟨{ b with createdAt := now, updatedAt := now },
    ?_, rfl, rfl, rfl, rfl, rfl, rfl, rfl, ?_, ?_⟩
  · have hlook : lookupKey b.id
        (r ++ [(b.id, { b with createdAt := now, updatedAt := now })])
        = some { b with createdAt := now, updatedAt := now } := by
      rw [lookupKey_append_of_none _ hid]
      simp
    simp [BookService.getBook, BookRepo.get, hlook]
  · simpa using Nat.pos_iff_ne_zero.mp hnow
  · simpa using Nat.pos_iff_ne_zero.mp hnow

/-- Witness for claim C7: create one book into the empty store at instant 3
and read it back. -/
theorem claim_C7_witness :
    ∃ b', BookService.getBook
        (BookService.createBook [] ⟨"b1", "T", "i1", "a1", 9, 12, "G", 0, 0⟩ 3).1 "b1"
        = .ok b'
      ∧ b'.id = "b1" ∧ b'.title = "T" ∧ b'.isbn = "i1"
      ∧ b'.authorID = "a1" ∧ b'.pages = 12 ∧ b'.genre = "G"
      ∧ b'.publishedAt = 9
      ∧ b'.createdAt ≠ 0 ∧ b'.updatedAt ≠ 0 := by
  exact claim_C7_create_get_roundtrip []
    (BookService.createBook [] ⟨"b1", "T", "i1", "a1", 9, 12, "G", 0, 0⟩ 3).1
    ⟨"b1", "T", "i1", "a1", 9, 12, "G", 0, 0⟩ 3 (by decide) (by decide)

/-- Claim C8: when a decoded, valid book has a fresh ISBN but an already
stored identifier, the repository's already-exists error propagates through
`CreateBook` untranslated, matches none of the service error kinds the
handler pattern-matches (`InvalidBook`, `DuplicateISBN`, `NotFound`), and
the handler answers with the generic 500 error body. -/
theorem claim_C8_alreadyexists_is_500 (r : BookRepo) (b : Book) (now : Nat)
    (hv : b.validate = none)
    (hno : ∀ x ∈ BookRepo.list r, x.isbn ≠ b.isbn)
    (hid : lookupKey b.id r ≠ none) :
    BookService.createBook r b now = (r, some (.repoErr .bookExists))
    ∧ (∀ m, SvcError.repoErr RepoError.bookExists ≠ SvcError.invalidBook m)
    ∧ SvcError.repoErr RepoError.bookExists ≠ SvcError.duplicateISBN
    ∧ SvcError.repoErr RepoError.bookExists ≠ SvcError.bookNotFound
    ∧ BookHandler.createBook r b now = (r, .jsonErr 500 "Failed to create book") := by
  refine ⟨createBook_id_exists hv hno hid now, ?_, ?_, ?_, ?_⟩
  · intro m h
    exact SvcError.noConfusion h
  · intro h
    exact SvcError.noConfusion h
  · intro h
    exact SvcError.noConfusion h
  · simp [BookHandler.createBook, createBook_id_exists hv hno hid now]

/-- Witness for claim C8: one stored book, a create with the same id and a
fresh ISBN. -/
theorem claim_C8_witness :
    BookService.createBook [("b1", ⟨"b1", "S", "i1", "a1", 0, 1, "", 1, 1⟩)]
        ⟨"b1", "T", "i2", "a1", 0, 1, "", 0, 0⟩ 5
      = ([("b1", ⟨"b1", "S", "i1", "a1", 0, 1, "", 1, 1⟩)],
          some (SvcError.repoErr RepoError.bookExists))
    ∧ BookHandler.createBook [("b1", ⟨"b1", "S", "i1", "a1", 0, 1, "", 1, 1⟩)]
        ⟨"b1", "T", "i2", "a1", 0, 1, "", 0, 0⟩ 5
      = ([("b1", ⟨"b1", "S", "i1", "a1", 0, 1, "", 1, 1⟩)],
          .jsonErr 500 "Failed to create book") := by
  refine ⟨?_, ?_⟩
  · exact (claim_C8_alreadyexists_is_500 [("b1", ⟨"b1", "S", "i1", "a1", 0, 1, "", 1, 1⟩)]
      ⟨"b1", "T", "i2", "a1", 0, 1, "", 0, 0⟩ 5 (by decide) (by decide) (by decide)).1
  · exact (claim_C8_alreadyexists_is_500 [("b1", ⟨"b1", "S", "i1", "a1", 0, 1, "", 1, 1⟩)]
      ⟨"b1", "T", "i2", "a1", 0, 1, "", 0, 0⟩ 5 (by decide) (by decide) (by decide)).2.2.2.2

/-- Claim C9: the wrapped handler runs exactly when the Authorization header
parses as case-insensitive "Basic " followed by valid standard base64 whose
decoding contains a colon byte and the user store authenticates the
username/password split at the first colon; in every other case the response
is 401 carrying a `WWW-Authenticate` value naming the configured realm, and
on success the attached user carries the username and its stored role. -/
theorem claim_C9_basic_auth (store : InMemoryUserStore) (realm auth : String) :
    (∀ u, basicAuth store realm auth = .handled u ↔
        ∃ np, parseBasicAuth auth = some np
          ∧ store.authenticate np.1 np.2 = some u)
    ∧ ((∀ np, parseBasicAuth auth = some np → store.authenticate np.1 np.2 = none) →
        basicAuth store realm auth
          = .unauthorized ("Basic realm=\"" ++ realm ++ "\""))
    ∧ (∀ np, parseBasicAuth auth = some np ↔
        (6 ≤ auth.length ∧ asciiEqFold (auth.take 6) "Basic " = true
          ∧ ∃ bs, base64StdDecode (auth.drop 6) = some bs ∧ 58 ∈ bs
            ∧ np = (bytesToStr (bs.takeWhile (fun x => x != 58)),
                    bytesToStr ((bs.dropWhile (fun x => x != 58)).tail))))
    ∧ (∀ u n p, store.authenticate n p = some u →
        u.username = n ∧ u.role = (lookupKey n store.roles).getD "") := by
  refine ⟨?_, ?_, ?_, ?_⟩
  · intro u
    match hp : parseBasicAuth auth with
    | none =>
        simp [basicAuth, hp]
    | some (n, p) =>
        match ha : store.authenticate n p with
        | none => simp [basicAuth, hp, ha]
        | some user => simp [basicAuth, hp, ha, eq_comm]
  · intro hall
    match hp : parseBasicAuth auth with
    | none => simp [basicAuth, hp, basicAuthChallenge]
    | some (n, p) =>
        have := hall (n, p) hp
        simp [basicAuth, hp, this, basicAuthChallenge]
  · intro np
    constructor
    · intro h
      unfold parseBasicAuth at h
      by_cases h6 : auth.length < 6
      · simp [h6] at h
      · rw [if_neg h6] at h
        by_cases hf : asciiEqFold (auth.take 6) "Basic " = true
        · rw [hf] at h
          simp only [Bool.not_true, Bool.false_eq_true, if_false] at h
          match hd : base64StdDecode (auth.drop 6) with
          | none =>
              rw [hd] at h
              exact Option.noConfusion h
          | some bs =>
              simp only [hd] at h
              by_cases hc : bs.contains 58
              · rw [if_pos hc] at h
                injection h with h
                refine ⟨Nat.not_lt.mp h6, hf, bs, rfl, ?_, h.symm⟩
                simpa using hc
              · rw [if_neg hc] at h
                exact Option.noConfusion h
        · have hf' : asciiEqFold (auth.take 6) "Basic " = false :=
            Bool.not_eq_true _ ▸ (Bool.eq_false_iff.mpr hf)
          rw [hf'] at h
          simp at h
    · rintro ⟨h6, hf, bs, hd, hc, rfl⟩
      have hc' : bs.contains 58 := by simpa using hc
      unfold parseBasicAuth
      rw [if_neg (Nat.not_lt.mpr h6), hf]
      simp only [Bool.not_true, Bool.false_eq_true, if_false]
      simp only [hd]
      rw [if_pos hc']
  · intro u n p h
    unfold InMemoryUserStore.authenticate at h
    match hl : lookupKey n store.users with
    | none =>
        rw [hl] at h
        exact Option.noConfusion h
    | some creds =>
        simp only [hl] at h
        by_cases hpw : creds.password == p
        · rw [if_pos hpw] at h
          injection h with h
          rw [← h]
          exact ⟨rfl, rfl⟩
        · rw [if_neg hpw] at h
          exact Option.noConfusion h

/-- Witness for claim C9 with a one-user store, realm "api" and the header
for "user:pass". -/
theorem claim_C9_witness :
    (basicAuth (InMemoryUserStore.addUser ⟨[], []⟩ "user" "pass" "admin") "api"
        "Basic dXNlcjpwYXNz" = .handled ⟨"user", "admin"⟩)
    ∧ (basicAuth (InMemoryUserStore.addUser ⟨[], []⟩ "user" "pass" "admin") "api"
        "" = .unauthorized "Basic realm=\"api\"")
    ∧ (parseBasicAuth "Basic dXNlcjpwYXNz" = some ("user", "pass"))
    ∧ ((User.mk "user" "admin").username = "user"
        ∧ (User.mk "user" "admin").role
            = (lookupKey "user"
                (InMemoryUserStore.addUser ⟨[], []⟩ "user" "pass" "admin").roles).getD "") := by
  refine ⟨?_, ?_, ?_, ?_⟩
  · exact ((claim_C9_basic_auth _ "api" "Basic dXNlcjpwYXNz").1 ⟨"user", "admin"⟩).mpr
      ⟨("user", "pass"), by decide, by decide⟩
  · refine (claim_C9_basic_auth _ "api" "").2.1 ?_
    intro np h
    rw [show parseBasicAuth "" = none from by decide] at h
    exact Option.noConfusion h
  · exact ((claim_C9_basic_auth ⟨[], []⟩ "api" "Basic dXNlcjpwYXNz").2.2.1
      ("user", "pass")).mpr
      ⟨by decide, by decide, [117, 115, 101, 114, 58, 112, 97, 115, 115],
        by decide, by decide, by decide⟩
  · exact (claim_C9_basic_auth _ "api" "").2.2.2 ⟨"user", "admin"⟩ "user" "pass" (by decide)

/-- Claim C10: whenever a service operation or a repository mutating
operation returns an error, the repository contents it could have mutated
are exactly what they were before the call. -/
theorem claim_C10_error_atomicity :
    (∀ (r : BookRepo) (b : Book) (now : Nat),
        (BookService.createBook r b now).2 ≠ none
          → (BookService.createBook r b now).1 = r)
    ∧ (∀ (r : BookRepo) (b : Book) (now : Nat),
        (BookService.updateBook r b now).2 ≠ none
          → (BookService.updateBook r b now).1 = r)
    ∧ (∀ (r : BookRepo) (id : String),
        (BookService.deleteBook r id).2 ≠ none
          → (BookService.deleteBook r id).1 = r)
    ∧ (∀ (r : AuthorRepo) (a : Author) (now : Nat),
        (AuthorService.createAuthor r a now).2 ≠ none
          → (AuthorService.createAuthor r a now).1 = r)
    ∧ (∀ (r : AuthorRepo) (a : Author) (now : Nat),
        (AuthorService.updateAuthor r a now).2 ≠ none
          → (AuthorService.updateAuthor r a now).1 = r)
    ∧ (∀ (r : AuthorRepo) (id : String),
        (AuthorService.deleteAuthor r id).2 ≠ none
          → (AuthorService.deleteAuthor r id).1 = r)
    ∧ (∀ (r : RLRepo) (l : ReadingList) (now : Nat),
        (RLService.createReadingList r l now).2 ≠ none
          → (RLService.createReadingList r l now).1 = r)
    ∧ (∀ (r : RLRepo) (l : ReadingList) (now : Nat),
        (RLService.updateReadingList r l now).2 ≠ none
          → (RLService.updateReadingList r l now).1 = r)
    ∧ (∀ (r : RLRepo) (id : String),
        (RLService.deleteReadingList r id).2 ≠ none
          → (RLService.deleteReadingList r id).1 = r)
    ∧ (∀ (books : BookRepo) (lists : RLRepo) (listID bookID : String) (now : Nat),
        (RLService.addBookToList books lists listID bookID now).2 ≠ none
          → (RLService.addBookToList books lists listID bookID now).1 = lists)
    ∧ (∀ (lists : RLRepo) (listID bookID : String) (now : Nat),
        (RLService.removeBookFromList lists listID bookID now).2 ≠ none
          → (RLService.removeBookFromList lists listID bookID now).1 = lists)
    ∧ (∀ (r : BookRepo) (b : Book) (now : Nat),
        (BookRepo.create r b now).2 ≠ none → (BookRepo.create r b now).1 = r)
    ∧ (∀ (r : BookRepo) (b : Book) (now : Nat),
        (BookRepo.update r b now).2 ≠ none → (BookRepo.update r b now).1 = r)
    ∧ (∀ (r : BookRepo) (id : String),
        (BookRepo.delete r id).2 ≠ none → (BookRepo.delete r id).1 = r)
    ∧ (∀ (r : AuthorRepo) (a : Author) (now : Nat),
        (AuthorRepo.create r a now).2 ≠ none → (AuthorRepo.create r a now).1 = r)
    ∧ (∀ (r : AuthorRepo) (a : Author) (now : Nat),
        (AuthorRepo.update r a now).2 ≠ none → (AuthorRepo.update r a now).1 = r)
    ∧ (∀ (r : AuthorRepo) (id : String),
        (AuthorRepo.delete r id).2 ≠ none → (AuthorRepo.delete r id).1 = r)
    ∧ (∀ (r : RLRepo) (l : ReadingList) (now : Nat),
        (RLRepo.create r l now).2 ≠ none → (RLRepo.create r l now).1 = r)
    ∧ (∀ (r : RLRepo) (l : ReadingList) (now : Nat),
        (RLRepo.update r l now).2 ≠ none → (RLRepo.update r l now).1 = r)
    ∧ (∀ (r : RLRepo) (id : String),
        (RLRepo.delete r id).2 ≠ none → (RLRepo.delete r id).1 = r) := by
  refine ⟨?_, ?_, ?_, ?_, ?_, ?_, ?_, ?_, ?_, ?_, ?_, ?_, ?_, ?_, ?_, ?_, ?_, ?_, ?_, ?_⟩
  · intro r b now h
    match hv : b.validate with
    | some m => rw [createBook_invalid hv]
    | none =>
        by_cases hdup : ∃ x ∈ BookRepo.list r, x.isbn = b.isbn
        · rw [createBook_dup hv hdup]
        · push_neg at hdup
          by_cases hid : lookupKey b.id r = none
          · rw [createBook_ok hv hdup hid] at h
            simp at h
          · rw [createBook_id_exists hv hdup hid]
  · intro r b now h
    match hv : b.validate with
    | some m => rw [updateBook_invalid hv]
    | none =>
        by_cases hdup : ∃ x ∈ BookRepo.list r, x.isbn = b.isbn ∧ x.id ≠ b.id
        · rw [updateBook_dup hv hdup]
        · push_neg at hdup
          match hid : lookupKey b.id r with
          | none => rw [updateBook_notFound hv hdup hid]
          | some ex =>
              rw [updateBook_ok hv hdup hid] at h
              simp at h
  · intro r id h
    unfold BookService.deleteBook BookRepo.delete at h ⊢
    by_cases hid : (lookupKey id r).isSome
    · simp [hid] at h
    · simp [hid]
  · intro r a now h
    unfold AuthorService.createAuthor AuthorRepo.create at h ⊢
    match hv : a.validate with
    | some m => simp [hv]
    | none =>
        by_cases hid : (lookupKey a.id r).isSome
        · simp [hv, hid]
        · simp [hv, hid] at h
  · intro r a now h
    unfold AuthorService.updateAuthor AuthorRepo.update at h ⊢
    match hv : a.validate with
    | some m => simp [hv]
    | none =>
        match hid : lookupKey a.id r with
        | none => simp [hv, hid]
        | some ex => simp [hv, hid] at h
  · intro r id h
    unfold AuthorService.deleteAuthor AuthorRepo.delete at h ⊢
    by_cases hid : (lookupKey id r).isSome
    · simp [hid] at h
    · simp [hid]
  · intro r l now h
    unfold RLService.createReadingList RLRepo.create at h ⊢
    match hv : l.validate with
    | some m => simp [hv]
    | none =>
        by_cases hid : (lookupKey l.id r).isSome
        · simp [hv, hid]
        · simp [hv, hid] at h
  · intro r l now h
    unfold RLService.updateReadingList RLRepo.update at h ⊢
    match hv : l.validate with
    | some m => simp [hv]
    | none =>
        match hid : lookupKey l.id r with
        | none => simp [hv, hid]
        | some ex => simp [hv, hid] at h
  · intro r id h
    unfold RLService.deleteReadingList RLRepo.delete at h ⊢
    by_cases hid : (lookupKey id r).isSome
    · simp [hid] at h
    · simp [hid]
  · intro books lists listID bookID now h
    unfold RLService.addBookToList at h ⊢
    match hb : BookRepo.get books bookID with
    | .error .bookNotFound => simp [hb]
    | .error .bookExists => simp [hb]
    | .error .authorNotFound => simp [hb]
    | .error .authorExists => simp [hb]
    | .error .readingListNotFound => simp [hb]
    | .error .readingListExists => simp [hb]
    | .ok bk =>
        simp only [hb] at h ⊢
        match hl : RLRepo.get lists listID with
        | .error .bookNotFound => simp [hl]
        | .error .bookExists => simp [hl]
        | .error .authorNotFound => simp [hl]
        | .error .authorExists => simp [hl]
        | .error .readingListNotFound => simp [hl]
        | .error .readingListExists => simp [hl]
        | .ok l =>
            simp only [hl] at h ⊢
            match hab : l.addBook bookID with
            | (false, l2) => simp [hab]
            | (true, l2) =>
                simp only [hab] at h ⊢
                unfold RLRepo.update at h ⊢
                match hu : lookupKey l2.id lists with
                | none => simp [hu]
                | some ex => simp [hu] at h
  · intro lists listID bookID now h
    unfold RLService.removeBookFromList at h ⊢
    match hl : RLRepo.get lists listID with
    | .error .bookNotFound => simp [hl]
    | .error .bookExists => simp [hl]
    | .error .authorNotFound => simp [hl]
    | .error .authorExists => simp [hl]
    | .error .readingListNotFound => simp [hl]
    | .error .readingListExists => simp [hl]
    | .ok l =>
        simp only [hl] at h ⊢
        match hrb : l.removeBook bookID with
        | (false, l2) => simp [hrb]
        | (true, l2) =>
            simp only [hrb] at h ⊢
            unfold RLRepo.update at h ⊢
            match hu : lookupKey l2.id lists with
            | none => simp [hu]
            | some ex => simp [hu] at h
  · intro r b now h
    unfold BookRepo.create at h ⊢
    by_cases hid : (lookupKey b.id r).isSome
    · simp [hid]
    · simp [hid] at h
  · intro r b now h
    unfold BookRepo.update at h ⊢
    match hid : lookupKey b.id r with
    | none => simp [hid]
    | some ex => simp [hid] at h
  · intro r id h
    unfold BookRepo.delete at h ⊢
    by_cases hid : (lookupKey id r).isSome
    · simp [hid] at h
    · simp [hid]
  · intro r a now h
    unfold AuthorRepo.create at h ⊢
    by_cases hid : (lookupKey a.id r).isSome
    · simp [hid]
    · simp [hid] at h
  · intro r a now h
    unfold AuthorRepo.update at h ⊢
    match hid : lookupKey a.id r with
    | none => simp [hid]
    | some ex => simp [hid] at h
  · intro r id h
    unfold AuthorRepo.delete at h ⊢
    by_cases hid : (lookupKey id r).isSome
    · simp [hid] at h
    · simp [hid]
  · intro r l now h
    unfold RLRepo.create at h ⊢
    by_cases hid : (lookupKey l.id r).isSome
    · simp [hid]
    · simp [hid] at h
  · intro r l now h
    unfold RLRepo.update at h ⊢
    match hid : lookupKey l.id r with
    | none => simp [hid]
    | some ex => simp [hid] at h
  · intro r id h
    unfold RLRepo.delete at h ⊢
    by_cases hid : (lookupKey id r).isSome
    · simp [hid] at h
    · simp [hid]

/-- Witness for claim C10: concrete failing calls of every operation leave
the concrete repository contents unchanged. -/
theorem claim_C10_witness :
    ((BookService.createBook [("b1", ⟨"b1", "S", "i1", "a1", 0, 1, "", 1, 1⟩)]
        ⟨"b2", "", "i2", "a1", 0, 1, "", 0, 0⟩ 5).1
      = [("b1", ⟨"b1", "S", "i1", "a1", 0, 1, "", 1, 1⟩)])
    ∧ ((BookService.updateBook [] ⟨"b1", "T", "i1", "a1", 0, 1, "", 0, 0⟩ 5).1 = [])
    ∧ ((BookService.deleteBook [] "b1").1 = [])
    ∧ ((AuthorService.createAuthor [] ⟨"a1", "", "", 0, "", 0, 0⟩ 5).1 = [])
    ∧ ((AuthorService.updateAuthor [] ⟨"a1", "N", "", 0, "", 0, 0⟩ 5).1 = [])
    ∧ ((AuthorService.deleteAuthor [] "a1").1 = [])
    ∧ ((RLService.createReadingList [] ⟨"L1", "", "", [], 0, 0⟩ 5).1 = [])
    ∧ ((RLService.updateReadingList [] ⟨"L1", "N", "", [], 0, 0⟩ 5).1 = [])
    ∧ ((RLService.deleteReadingList [] "L1").1 = [])
    ∧ ((RLService.addBookToList [] [("L1", ⟨"L1", "N", "", ["B0"], 1, 1⟩)] "L1" "B0" 5).1
        = [("L1", ⟨"L1", "N", "", ["B0"], 1, 1⟩)])
    ∧ ((RLService.removeBookFromList [("L1", ⟨"L1", "N", "", ["B0"], 1, 1⟩)] "L1" "BX" 5).1
        = [("L1", ⟨"L1", "N", "", ["B0"], 1, 1⟩)])
    ∧ ((BookRepo.create [("b1", ⟨"b1", "S", "i1", "a1", 0, 1, "", 1, 1⟩)]
        ⟨"b1", "T", "i2", "a1", 0, 1, "", 0, 0⟩ 5).1
      = [("b1", ⟨"b1", "S", "i1", "a1", 0, 1, "", 1, 1⟩)])
    ∧ ((BookRepo.update [] ⟨"b1", "T", "i1", "a1", 0, 1, "", 0, 0⟩ 5).1 = [])
    ∧ ((BookRepo.delete [] "b1").1 = [])
    ∧ ((AuthorRepo.create [("a1", ⟨"a1", "N", "", 0, "", 1, 1⟩)]
        ⟨"a1", "M", "", 0, "", 0, 0⟩ 5).1 = [("a1", ⟨"a1", "N", "", 0, "", 1, 1⟩)])
    ∧ ((AuthorRepo.update [] ⟨"a1", "N", "", 0, "", 0, 0⟩ 5).1 = [])
    ∧ ((AuthorRepo.delete [] "a1").1 = [])
    ∧ ((RLRepo.create [("L1", ⟨"L1", "N", "", [], 1, 1⟩)]
        ⟨"L1", "M", "", [], 0, 0⟩ 5).1 = [("L1", ⟨"L1", "N", "", [], 1, 1⟩)])
    ∧ ((RLRepo.update [] ⟨"L1", "N", "", [], 0, 0⟩ 5).1 = [])
    ∧ ((RLRepo.delete [] "L1").1 = []) := by
  refine ⟨?_, ?_, ?_, ?_, ?_, ?_, ?_, ?_, ?_, ?_, ?_, ?_, ?_, ?_, ?_, ?_, ?_, ?_, ?_, ?_⟩
  · exact claim_C10_error_atomicity.1 _ _ 5 (by decide)
  · exact claim_C10_error_atomicity.2.1 _ _ 5 (by decide)
  · exact claim_C10_error_atomicity.2.2.1 _ _ (by decide)
  · exact claim_C10_error_atomicity.2.2.2.1 _ _ 5 (by decide)
  · exact claim_C10_error_atomicity.2.2.2.2.1 _ _ 5 (by decide)
  · exact claim_C10_error_atomicity.2.2.2.2.2.1 _ _ (by decide)
  · exact claim_C10_error_atomicity.2.2.2.2.2.2.1 _ _ 5 (by decide)
  · exact claim_C10_error_atomicity.2.2.2.2.2.2.2.1 _ _ 5 (by decide)
  · exact claim_C10_error_atomicity.2.2.2.2.2.2.2.2.1 _ _ (by decide)
  · exact claim_C10_error_atomicity.2.2.2.2.2.2.2.2.2.1 _ _ _ _ 5 (by decide)
  · exact claim_C10_error_atomicity.2.2.2.2.2.2.2.2.2.2.1 _ _ _ 5 (by decide)
  · exact claim_C10_error_atomicity.2.2.2.2.2.2.2.2.2.2.2.1 _ _ 5 (by decide)
  · exact claim_C10_error_atomicity.2.2.2.2.2.2.2.2.2.2.2.2.1 _ _ 5 (by decide)
  · exact claim_C10_error_atomicity.2.2.2.2.2.2.2.2.2.2.2.2.2.1 _ _ (by decide)
  · exact claim_C10_error_atomicity.2.2.2.2.2.2.2.2.2.2.2.2.2.2.1 _ _ 5 (by decide)
  · exact claim_C10_error_atomicity.2.2.2.2.2.2.2.2.2.2.2.2.2.2.2.1 _ _ 5 (by decide)
  · exact claim_C10_error_atomicity.2.2.2.2.2.2.2.2.2.2.2.2.2.2.2.2.1 _ _ (by decide)
  · exact claim_C10_error_atomicity.2.2.2.2.2.2.2.2.2.2.2.2.2.2.2.2.2.1 _ _ 5 (by decide)
  · exact claim_C10_error_atomicity.2.2.2.2.2.2.2.2.2.2.2.2.2.2.2.2.2.2.1 _ _ 5 (by decide)
  · exact claim_C10_error_atomicity.2.2.2.2.2.2.2.2.2.2.2.2.2.2.2.2.2.2.2 _ _ (by decide)
